import Mathlib

/-!
Shallow embedding of the goquant-trade-simulator core (src/src/core/orderbook.py,
src/src/core/trade_simulator.py, src/src/models/almgren_chriss.py,
src/src/models/fee_calculator.py, src/src/models/slippage_estimation.py),
together with theorems settling the frozen claims about it.

Conventions:
- Python floats are modelled as exact numbers: `ℚ` for the fully discrete orderbook
  pipeline (parsing, greedy book walking, histories), `ℝ` where the source computes
  transcendental functions (`np.log`, `np.std`, `np.sinh`, `np.sqrt`).
- Fallible Python code (exceptions such as `ValueError`, `ZeroDivisionError`,
  `IndexError`) is modelled with `Option`/`Except`.
- Calls into external libraries whose numeric result is irrelevant to control flow
  (scipy optimisation, sklearn model fitting, the pseudo-random train/test split)
  are modelled as explicit environment parameters ("oracles"); theorems that depend
  on a property of such a call (e.g. that a fitted regressor minimises its loss)
  take that property as a hypothesis, which is discharged at a concrete
  instantiation in the corresponding witness.
-/

namespace GoQuant

/-! ## List helpers (Python slicing semantics) -/

/-- Last `n` elements of a list (`l[-n:]` for `n ≥ 1`, and the suffix kept by
FIFO eviction to capacity `n`). -/
def lastN (l : List α) (n : ℕ) : List α := l.drop (l.length - n)

/-- Python's `l[-n:]` slice: for `n = 0` this is the whole list (since `-0 = 0`),
otherwise the last `n` elements. -/
def pySliceLast (l : List α) (n : ℕ) : List α :=
  if n = 0 then l else lastN l n

/-- Sum of a list of rationals (used for depth totals). -/
def qsum (l : List ℚ) : ℚ := l.foldr (· + ·) 0

/-! ## orderbook.py: data model -/

/-- Source: `OrderbookLevel` (orderbook.py). One price level. -/
structure OrderbookLevel where
  price : ℚ
  quantity : ℚ
deriving DecidableEq, Repr

/-- Source: `OrderbookSnapshot` (orderbook.py). Timestamps are modelled as
rationals (seconds since epoch). -/
structure OrderbookSnapshot where
  timestamp : ℚ
  exchange : String
  symbol : String
  bids : List OrderbookLevel
  asks : List OrderbookLevel
deriving DecidableEq, Repr

/-- Source: `OrderbookSnapshot.best_bid`. -/
def OrderbookSnapshot.best_bid (ob : OrderbookSnapshot) : Option ℚ :=
  ob.bids.head?.map (·.price)

/-- Source: `OrderbookSnapshot.best_ask`. -/
def OrderbookSnapshot.best_ask (ob : OrderbookSnapshot) : Option ℚ :=
  ob.asks.head?.map (·.price)

/-- Source: `OrderbookSnapshot.mid_price`. -/
def OrderbookSnapshot.mid_price (ob : OrderbookSnapshot) : Option ℚ :=
  match ob.best_bid, ob.best_ask with
  | some b, some a => some ((b + a) / 2)
  | _, _ => none

/-- Source: `OrderbookSnapshot.spread`. -/
def OrderbookSnapshot.spread (ob : OrderbookSnapshot) : Option ℚ :=
  match ob.best_bid, ob.best_ask with
  | some b, some a => some (a - b)
  | _, _ => none

/-! ## orderbook.py: OrderbookAnalyzer -/

/-- Source: `OrderbookAnalyzer` mutable state (the four rolling histories plus
the capacity `max_history`). -/
structure OrderbookAnalyzer where
  max_history : ℕ
  price_history : List ℚ
  spread_history : List ℚ
  volume_history : List ℚ
  timestamp_history : List ℚ
deriving Repr

/-- Source: `OrderbookAnalyzer.__init__` (default `max_history=1000`). -/
def OrderbookAnalyzer.init (max_history : ℕ := 1000) : OrderbookAnalyzer :=
  ⟨max_history, [], [], [], []⟩

/-- One `if len(h) > max: h.pop(0)` step. -/
def trimHistory (l : List α) (maxLen : ℕ) : List α :=
  if maxLen < l.length then l.drop 1 else l

/-- Top-5-level volume appended by `OrderbookAnalyzer.update`:
`sum(level.quantity for level in bids[:5]) + sum(... asks[:5])`. -/
def topVolume (ob : OrderbookSnapshot) : ℚ :=
  qsum ((ob.bids.take 5).map (·.quantity)) + qsum ((ob.asks.take 5).map (·.quantity))

/-- Source: `OrderbookAnalyzer.update`. Appends mid price/timestamp when the mid
price exists, spread when the spread exists, top-level volume always, then trims
each history to `max_history` by popping the front. -/
def OrderbookAnalyzer.update (a : OrderbookAnalyzer) (ob : OrderbookSnapshot) :
    OrderbookAnalyzer :=
  let prices :=
    match ob.mid_price with
    | some m => a.price_history ++ [m]
    | none => a.price_history
  let tss :=
    match ob.mid_price with
    | some _ => a.timestamp_history ++ [ob.timestamp]
    | none => a.timestamp_history
  let spreads :=
    match ob.spread with
    | some s => a.spread_history ++ [s]
    | none => a.spread_history
  let vols := a.volume_history ++ [topVolume ob]
  { a with
    price_history := trimHistory prices a.max_history
    timestamp_history := trimHistory tss a.max_history
    spread_history := trimHistory spreads a.max_history
    volume_history := trimHistory vols a.max_history }

/-- Mean of a list of reals (`np.mean`). -/
noncomputable def npMean (l : List ℝ) : ℝ := l.sum / l.length

/-- Population standard deviation of a list of reals: `np.std` with its default
`ddof=0`, i.e. `sqrt(mean((x - mean x)^2))`. -/
noncomputable def npStd (l : List ℝ) : ℝ :=
  Real.sqrt (((l.map (fun x => (x - npMean l) ^ 2)).sum) / l.length)

/-- Consecutive log-returns: `np.diff(np.log(prices))`. -/
noncomputable def logReturns (l : List ℝ) : List ℝ :=
  (l.zip l.tail).map (fun p => Real.log p.2 - Real.log p.1)

/-- Elementwise embedding of rational prices into the reals. -/
def ratCastList (l : List ℚ) : List ℝ := l.map Rat.cast

/-- Source: `OrderbookAnalyzer.get_volatility`. Returns `None` when the history
is shorter than `window`, otherwise `np.std` of the log-returns over
`price_history[-window:]` (and `None` again when there are no returns). -/
noncomputable def OrderbookAnalyzer.get_volatility (a : OrderbookAnalyzer)
    (window : ℕ := 100) : Option ℝ :=
  if a.price_history.length < window then none
  else
    let prices := ratCastList (pySliceLast a.price_history window)
    let returns := logReturns prices
    if 0 < returns.length then some (npStd returns) else none

/-! ## orderbook.py: calculate_impact_price -/

/-- Trade side (`side.lower() == "buy"` selects asks, anything else bids). -/
inductive Side
  | buy
  | sell
deriving DecidableEq, Repr

/-- The fill loop of `OrderbookAnalyzer.calculate_impact_price`: walks levels in
book order, consuming `min(remaining, level.quantity)` at each level; returns
the accumulated cost and the remaining quantity. -/
def impactLoop : List OrderbookLevel → ℚ → ℚ → ℚ × ℚ
  | [], rem, total => (total, rem)
  | l :: ls, rem, total =>
    if rem ≤ 0 then (total, rem)
    else impactLoop ls (rem - min rem l.quantity) (total + min rem l.quantity * l.price)

/-- Source: `OrderbookAnalyzer.calculate_impact_price`. `None` when the side is
empty or the book cannot fill the quantity; otherwise the volume-weighted
average fill price `total_cost / quantity`. -/
def calculate_impact_price (ob : OrderbookSnapshot) (quantity : ℚ) (side : Side) :
    Option ℚ :=
  let levels := match side with | .buy => ob.asks | .sell => ob.bids
  if levels.isEmpty then none
  else
    let r := impactLoop levels quantity 0
    if 0 < r.2 then none else some (r.1 / quantity)

/-- Total resting quantity on a list of levels. -/
def totalDepth (levels : List OrderbookLevel) : ℚ := qsum (levels.map (·.quantity))

/-- The side consumed by an order (asks for a buy, bids for a sell). -/
def consumedSide (ob : OrderbookSnapshot) : Side → List OrderbookLevel
  | .buy => ob.asks
  | .sell => ob.bids

/-! ## orderbook.py: OrderbookProcessor.process_message

The raw WebSocket message is modelled after JSON decoding (the claims only
concern messages that are valid JSON with `bids`/`asks` arrays). A JSON scalar
inside a level is either a number, a numeric string (both of which Python's
`float(...)` coerces), or a value on which `float(...)` raises. -/

/-- A JSON scalar as seen by `float(...)`: coercible (number or numeric string,
carrying its numeric value) or not. -/
inductive JVal
  | num (q : ℚ)
  | numStr (q : ℚ)
  | bad
deriving DecidableEq, Repr

/-- Python `float(v)`: succeeds on numbers and numeric strings, raises
(`ValueError`/`TypeError`) otherwise. -/
def JVal.toFloat : JVal → Option ℚ
  | .num q => some q
  | .numStr q => some q
  | .bad => none

/-- The `timestamp` field of a decoded message: absent, present and parseable
by `datetime.fromisoformat`, or present but malformed (parse raises). -/
inductive TsField
  | absent
  | valid (t : ℚ)
  | invalid
deriving DecidableEq, Repr

/-- A decoded feed message that is valid JSON containing `bids`/`asks` arrays. -/
structure RawMessage where
  timestamp : TsField
  exchange : Option String
  symbol : Option String
  bids : List (List JVal)
  asks : List (List JVal)

/-- The per-side level loop of `process_message`: levels with fewer than two
entries are skipped (`if len(bid_data) >= 2`), and a `float(...)` failure on a
kept level raises out of the whole loop (`none`). -/
def parseLevels : List (List JVal) → Option (List OrderbookLevel)
  | [] => some []
  | (a :: b :: _) :: rest =>
    match a.toFloat, b.toFloat with
    | some p, some q => (parseLevels rest).map (⟨p, q⟩ :: ·)
    | _, _ => none
  | _ :: rest => parseLevels rest

/-- Ascending-by-price comparison used to sort asks (`key=lambda x: x.price`). -/
def levelLE (a b : OrderbookLevel) : Prop := a.price ≤ b.price

/-- Descending-by-price comparison used to sort bids (`reverse=True`). -/
def levelGE (a b : OrderbookLevel) : Prop := b.price ≤ a.price

instance : DecidableRel levelLE := fun a b => inferInstanceAs (Decidable (a.price ≤ b.price))

instance : DecidableRel levelGE := fun a b => inferInstanceAs (Decidable (b.price ≤ a.price))

instance : IsTotal OrderbookLevel levelLE := ⟨fun a b => le_total a.price b.price⟩

instance : IsTrans OrderbookLevel levelLE := ⟨fun _ _ _ h1 h2 => le_trans h1 h2⟩

instance : IsTotal OrderbookLevel levelGE := ⟨fun a b => le_total b.price a.price⟩

instance : IsTrans OrderbookLevel levelGE := ⟨fun _ _ _ h1 h2 => le_trans h2 h1⟩

/-- Source: `OrderbookProcessor.process_message` (after JSON decoding), with
`now` the ingestion time `datetime.now(timezone.utc)`. Any exception inside the
`try` block — a malformed timestamp or a level whose price/quantity fails
numeric coercion — makes the whole call return `None`. -/
def process_message (msg : RawMessage) (now : ℚ) : Option OrderbookSnapshot :=
  match (match msg.timestamp with
         | .absent => some now
         | .valid t => some t
         | .invalid => none) with
  | none => none
  | some ts =>
    match parseLevels msg.bids, parseLevels msg.asks with
    | some bids, some asks =>
      some { timestamp := ts
             exchange := msg.exchange.getD "OKX"
             symbol := msg.symbol.getD "BTC-USDT-SWAP"
             bids := bids.insertionSort levelGE
             asks := asks.insertionSort levelLE }
    | _, _ => none

/-- The well-formed levels of one raw side: levels with at least two entries
whose price and quantity both coerce (used to state what `process_message`
keeps). -/
def wellFormedLevels (side : List (List JVal)) : List OrderbookLevel :=
  side.filterMap fun ld =>
    match ld with
    | a :: b :: _ =>
      match a.toFloat, b.toFloat with
      | some p, some q => some ⟨p, q⟩
      | _, _ => none
    | _ => none

/-- A raw side none of whose kept levels fails numeric coercion. -/
def coercibleSide (side : List (List JVal)) : Bool :=
  side.all fun ld =>
    match ld with
    | a :: b :: _ => a.toFloat.isSome && b.toFloat.isSome
    | _ => true

/-! ## fee_calculator.py: FeeCalculator

Parametric over a linear ordered field so the same definitions serve the
rational (decidable) fee theorems and the real-valued cost integrator. -/

/-- Source: `FeeStructure` (fee_calculator.py). `volume_tiers` is the dict
`{min_volume: (maker_rate, taker_rate)}` as a key-value list. -/
structure FeeStructure (α : Type) where
  maker_fee_rate : α
  taker_fee_rate : α
  volume_tiers : List (α × α × α)

/-- Source: `FeeCalculator` state (`fee_structure` plus `daily_volume`). -/
structure FeeCalculator (α : Type) where
  fee_structure : FeeStructure α
  daily_volume : α

/-- The tier scan of `get_current_fee_rates`: walk tiers in ascending key
order, keeping the rates of each tier whose threshold is `≤ volume`, and
`break` at the first tier above it. -/
def tierLoop [LinearOrder α] : List (α × α × α) → α → α × α → α × α
  | [], _, acc => acc
  | (mv, mr, tr) :: rest, volume, acc =>
    if mv ≤ volume then tierLoop rest volume (mr, tr) else acc

/-- Ascending order on tier thresholds. -/
def tierKeyLE [LinearOrder α] (a b : α × α × α) : Prop := a.1 ≤ b.1

instance [LinearOrder α] : DecidableRel (tierKeyLE (α := α)) :=
  fun a b => inferInstanceAs (Decidable (a.1 ≤ b.1))

instance [LinearOrder α] : IsTotal (α × α × α) tierKeyLE :=
  ⟨fun a b => le_total a.1 b.1⟩

instance [LinearOrder α] : IsTrans (α × α × α) tierKeyLE :=
  ⟨fun _ _ _ h1 h2 => le_trans h1 h2⟩

/-- Python's `sorted(volume_tiers.items())`: tiers in ascending key order. -/
def sortedTiers [LinearOrder α] (tiers : List (α × α × α)) : List (α × α × α) :=
  tiers.insertionSort tierKeyLE

/-- Source: `FeeCalculator.get_current_fee_rates`. Note the Python truthiness
fallback `volume = current_volume or self.daily_volume`: an argument of `None`
or `0` falls back to the stored daily volume. -/
def get_current_fee_rates [LinearOrderedField α] (fc : FeeCalculator α)
    (current_volume : Option α) : α × α :=
  let volume :=
    match current_volume with
    | some v => if v = 0 then fc.daily_volume else v
    | none => fc.daily_volume
  tierLoop (sortedTiers fc.fee_structure.volume_tiers) volume
    (fc.fee_structure.maker_fee_rate, fc.fee_structure.taker_fee_rate)

/-- Source: `TradingCostBreakdown` (fee_calculator.py). -/
structure TradingCostBreakdown (α : Type) where
  principal_amount : α
  base_fee : α
  volume_discount : α
  net_fee : α
  maker_taker_prob : α
  expected_fee : α
  fee_rate_bps : α

/-- Source: `FeeCalculator.calculate_expected_fee` (called with no
`current_volume`). `None` models the `ZeroDivisionError` raised by
`expected_fee / trade_amount` when the trade amount is zero. -/
def calculate_expected_fee [LinearOrderedField α] (fc : FeeCalculator α)
    (trade_amount : α) (maker_probability : α) :
    Option (TradingCostBreakdown α) :=
  let rates := get_current_fee_rates fc none
  let maker_fee := trade_amount * rates.1
  let taker_fee := trade_amount * rates.2
  let expected_fee := maker_probability * maker_fee + (1 - maker_probability) * taker_fee
  let base_fee := trade_amount * fc.fee_structure.taker_fee_rate
  if trade_amount = 0 then none
  else some
    { principal_amount := trade_amount
      base_fee := base_fee
      volume_discount := base_fee - expected_fee
      net_fee := expected_fee
      maker_taker_prob := maker_probability
      expected_fee := expected_fee
      fee_rate_bps := expected_fee / trade_amount * 10000 }

/-- Spec §4.5, stated in the spec's own words: "selects the highest volume tier
not exceeding `volume` from a sorted tier table, falling back to base
maker/taker rates". Used to compare the source's scan against the spec. -/
def specTierRates [LinearOrderedField α] (fs : FeeStructure α) (volume : α) : α × α :=
  match ((sortedTiers fs.volume_tiers).filter (fun t => t.1 ≤ volume)).getLast? with
  | some (_, mr, tr) => (mr, tr)
  | none => (fs.maker_fee_rate, fs.taker_fee_rate)

/-! ## almgren_chriss.py: AlmgrenChrissModel -/

/-- Source: `AlmgrenChrissParams` (almgren_chriss.py). -/
structure AlmgrenChrissParams where
  sigma : ℝ
  gamma : ℝ
  eta : ℝ
  epsilon : ℝ
  tau : ℝ

/-- Source: `AlmgrenChrissParams.__post_init__` validation: constructing the
dataclass succeeds exactly when these hold. -/
def AlmgrenChrissParams.Valid (p : AlmgrenChrissParams) : Prop :=
  0 < p.sigma ∧ 0 < p.gamma ∧ 0 ≤ p.eta ∧ 0 ≤ p.epsilon ∧ 0 < p.tau

/-- Source: `TradingSchedule` (almgren_chriss.py). -/
structure TradingSchedule where
  times : List ℝ
  holdings : List ℝ
  trade_rates : List ℝ
  expected_cost : ℝ
  variance : ℝ
  utility : ℝ

/-- Source: `AlmgrenChrissModel._calculate_kappa`:
`np.sqrt(gamma * sigma**2 / eta)`. The plain-float division raises
`ZeroDivisionError` when `eta == 0`, modelled as `none`. -/
noncomputable def calculate_kappa (p : AlmgrenChrissParams) : Option ℝ :=
  if p.eta = 0 then none
  else some (Real.sqrt (p.gamma * p.sigma ^ 2 / p.eta))

/-- The holdings formula of `calculate_optimal_strategy`: at a grid time `t`,
`X * sinh(kappa*(tau-t)) / sinh(kappa*tau)` while `tau - t > 0`, else `0`. -/
noncomputable def acHolding (p : AlmgrenChrissParams) (kappa X t : ℝ) : ℝ :=
  if 0 < p.tau - t then
    X * Real.sinh (kappa * (p.tau - t)) / Real.sinh (kappa * p.tau)
  else 0

/-- Source: `AlmgrenChrissModel._calculate_expected_cost`. -/
noncomputable def calculate_expected_cost (p : AlmgrenChrissParams) (X : ℝ)
    (trade_rates : List ℝ) (dt : ℝ) : ℝ :=
  0.5 * p.eta * X ^ 2 + p.epsilon * (trade_rates.map (· ^ 2)).sum * dt

/-- Source: `AlmgrenChrissModel._calculate_variance`. -/
noncomputable def calculate_variance (p : AlmgrenChrissParams) (X : ℝ) : ℝ :=
  p.sigma ^ 2 * X ^ 2 * p.tau / 3

/-- Source: `AlmgrenChrissModel.calculate_optimal_strategy`. `none` models the
`ZeroDivisionError` raised when `eta == 0` (inside `_calculate_kappa`) or when
`n_intervals == 0` (in `dt = tau / n_intervals`). The time grid is
`np.linspace(0, tau, n_intervals + 1)`, i.e. `t_i = i * tau / n`. -/
noncomputable def calculate_optimal_strategy (p : AlmgrenChrissParams)
    (initial_position : ℝ) (n_intervals : ℕ) : Option TradingSchedule :=
  match calculate_kappa p with
  | none => none
  | some kappa =>
    if n_intervals = 0 then none
    else
      let dt := p.tau / n_intervals
      let times := (List.range (n_intervals + 1)).map
        (fun (i : ℕ) => (i : ℝ) * p.tau / (n_intervals : ℝ))
      let holdings := times.map (acHolding p kappa initial_position)
      let trade_rates := (List.range n_intervals).map
        (fun i => -(holdings.getD (i + 1) 0 - holdings.getD i 0) / dt)
      let expected_cost := calculate_expected_cost p initial_position trade_rates dt
      let variance := calculate_variance p initial_position
      some { times := times
             holdings := holdings
             trade_rates := trade_rates
             expected_cost := expected_cost
             variance := variance
             utility := expected_cost + 0.5 * p.gamma * variance }

/-- Result of `AlmgrenChrissModel.calculate_market_impact`. -/
structure MarketImpactInfo where
  permanent_impact : ℝ
  temporary_impact : ℝ
  total_impact : ℝ
  impact_bps : ℝ

/-- Source: `AlmgrenChrissModel.calculate_market_impact`. The nearest schedule
time index is looked up (`np.argmin(np.abs(times - t))`) but does not affect
the returned values, which the source documents as a known simplification. -/
noncomputable def calculate_market_impact (p : AlmgrenChrissParams)
    (trade_size : ℝ) (current_time : ℝ) (strategy : TradingSchedule) :
    MarketImpactInfo :=
  let _time_idx := strategy.times.map (fun t => |t - current_time|)
  let permanent := p.eta * trade_size
  let temporary := p.epsilon * trade_size
  { permanent_impact := permanent
    temporary_impact := temporary
    total_impact := permanent + temporary
    impact_bps := (permanent + temporary) * 10000 }

/-! ## almgren_chriss.py: AdaptiveAlmgrenChriss -/

/-- One entry of the adaptive model's `_recent_trades` buffer
(`{size, price, time, actual_impact, initial_position}`). -/
structure ACTrade where
  size : ℝ
  price : ℝ
  time : ℝ
  actual_impact : ℝ
  initial_position : ℝ

/-- Source: `AdaptiveAlmgrenChriss` state (`_max_history = 100`). -/
structure AdaptiveAlmgrenChriss where
  current_params : AlmgrenChrissParams
  adaptation_rate : ℝ
  recent_trades : List ACTrade

/-- Source: `AdaptiveAlmgrenChriss.__init__` (default `adaptation_rate=0.1`). -/
def AdaptiveAlmgrenChriss.init (initial_params : AlmgrenChrissParams)
    (adaptation_rate : ℝ := 0.1) : AdaptiveAlmgrenChriss :=
  ⟨initial_params, adaptation_rate, []⟩

/-- Outcome of `AlmgrenChrissModel.optimize_parameters` (scipy L-BFGS-B over
the recent-trade buffer), modelled as an oracle; `none` models any exception,
which `_adapt_parameters` catches and logs. -/
def ACOptimizer := List ACTrade → Option AlmgrenChrissParams

/-- Source: `AdaptiveAlmgrenChriss._adapt_parameters`: below 10 buffered trades
do nothing; otherwise blend the re-optimised `gamma`, `eta`, `epsilon` into the
current parameters with weight `adaptation_rate` (`sigma` and `tau` are never
touched); on an optimisation exception keep the parameters unchanged. -/
def adapt_parameters (opt : ACOptimizer) (m : AdaptiveAlmgrenChriss) :
    AdaptiveAlmgrenChriss :=
  if m.recent_trades.length < 10 then m
  else
    match opt m.recent_trades with
    | none => m
    | some newp =>
      { m with current_params :=
        { m.current_params with
          gamma := (1 - m.adaptation_rate) * m.current_params.gamma +
            m.adaptation_rate * newp.gamma
          eta := (1 - m.adaptation_rate) * m.current_params.eta +
            m.adaptation_rate * newp.eta
          epsilon := (1 - m.adaptation_rate) * m.current_params.epsilon +
            m.adaptation_rate * newp.epsilon } }

/-- Source: `AdaptiveAlmgrenChriss.update_with_trade`: append the trade, keep
only the last 100, and run an adaptation cycle whenever the buffer length is a
multiple of 10. -/
def update_with_trade (opt : ACOptimizer) (m : AdaptiveAlmgrenChriss)
    (trade : ACTrade) : AdaptiveAlmgrenChriss :=
  let trades0 := m.recent_trades ++ [trade]
  let trades := if 100 < trades0.length then lastN trades0 100 else trades0
  let m1 := { m with recent_trades := trades }
  if trades.length % 10 = 0 then adapt_parameters opt m1 else m1

/-! ## sklearn plumbing shared by slippage_estimation.py and fee_calculator.py

`train_test_split` and the model-fitting routines live outside the repository;
they are modelled as environment oracles. The documented facts a theorem needs
about them (split sizes/index ranges, that a fitted regressor minimises its
least-squares objective with a minimum-norm coefficient vector, that a fitted
classifier's probability columns are indexed by the sorted distinct training
labels) appear as hypotheses or as faithful structure in the definitions. -/

/-- Dot product of two coefficient/feature vectors (truncating zip, as numpy
row-vector products over equal-length arrays). -/
def dot (a b : List ℝ) : ℝ := (List.zipWith (· * ·) a b).sum

/-- Squared-error objective of a linear model `x ↦ dot w x + b` over paired
rows and targets. -/
def lstsqLoss (X : List (List ℝ)) (y : List ℝ) (w : List ℝ) (b : ℝ) : ℝ :=
  (List.zipWith (fun x yi => (dot w x + b - yi) ^ 2) X y).sum

/-- Characterisation of `sklearn.linear_model.LinearRegression.fit`: the fitted
`(coef, intercept)` minimise the squared error, with a coefficient vector of
minimal squared norm among all minimisers (sklearn solves the centred system
with a minimum-norm least-squares solver). -/
def IsLinRegFit (X : List (List ℝ)) (y : List ℝ) (w : List ℝ) (b : ℝ) : Prop :=
  (∀ w' b', lstsqLoss X y w b ≤ lstsqLoss X y w' b') ∧
  (∀ w' b', lstsqLoss X y w' b' = lstsqLoss X y w b → dot w w ≤ dot w' w')

/-- State of a fitted `StandardScaler`: per-column means and scales. -/
structure ScalerState where
  mean : List ℝ
  scale : List ℝ

/-- An unfitted scaler. -/
def ScalerState.empty : ScalerState := ⟨[], []⟩

/-- `StandardScaler.fit`: per-column mean and standard deviation, with
zero-variance columns scaled by `1` (sklearn's `_handle_zeros_in_scale`). -/
noncomputable def fitScaler (X : List (List ℝ)) : ScalerState :=
  let d := (X.headD []).length
  let col : ℕ → List ℝ := fun j => X.map (fun row => row.getD j 0)
  { mean := (List.range d).map (fun j => npMean (col j))
    scale := (List.range d).map (fun j =>
      let v : ℝ := ((col j).map (fun x => (x - npMean (col j)) ^ 2)).sum / ((col j).length : ℝ)
      if v = 0 then 1 else Real.sqrt v) }

/-- `StandardScaler.transform` of one row. -/
noncomputable def scale_transform (s : ScalerState) (x : List ℝ) : List ℝ :=
  (x.zip (s.mean.zip s.scale)).map (fun p => (p.1 - p.2.1) / p.2.2)

/-- Rows of a design matrix selected by a list of indices (out-of-range indices
never occur for a well-formed split). -/
def rowsAt (X : List (List ℝ)) (idx : List ℕ) : List (List ℝ) :=
  idx.map (fun i => X.getD i [])

/-- Target values selected by a list of indices. -/
def valsAt (y : List α) (d : α) (idx : List ℕ) : List α :=
  idx.map (fun i => y.getD i d)

/-- A well-formed outcome of `train_test_split(..., test_size=0.2)` on `n`
samples: `ceil(n/5)` test rows, the rest training rows, all indices in range.
(The concrete shuffle is a seeded PRNG and is left abstract.) -/
def ValidSplit (split : ℕ → List ℕ × List ℕ) (n : ℕ) : Prop :=
  (split n).1.length = n - (n + 4) / 5 ∧
  (split n).2.length = (n + 4) / 5 ∧
  (∀ i ∈ (split n).1, i < n) ∧ (∀ i ∈ (split n).2, i < n)

/-- Typed failures raised by the training routines: the explicit `ValueError`s
of the source's length and minimum-sample checks, sklearn's stratified-split
validation errors, and the `IndexError` of a `[:, 1]` probability-column read
on a single-class model. -/
inductive SkError
  | length_mismatch
  | insufficient_samples
  | stratify_failure
  | class_index_out_of_range
deriving DecidableEq, Repr

/-! ## slippage_estimation.py: SlippageEstimator -/

/-- Source: `SlippageFeatures` (slippage_estimation.py). -/
structure SlippageFeatures where
  trade_size : ℝ
  trade_size_relative : ℝ
  bid_ask_spread : ℝ
  bid_ask_spread_bps : ℝ
  market_depth_1 : ℝ
  market_depth_5 : ℝ
  market_depth_10 : ℝ
  volatility : ℝ
  momentum : ℝ
  time_of_day : ℝ
  volume_profile : ℝ
  order_flow_imbalance : ℝ

/-- Source: `SlippageEstimator._features_to_array`. -/
def slip_features_to_array (f : SlippageFeatures) : List ℝ :=
  [f.trade_size, f.trade_size_relative, f.bid_ask_spread, f.bid_ask_spread_bps,
   f.market_depth_1, f.market_depth_5, f.market_depth_10, f.volatility,
   f.momentum, f.time_of_day, f.volume_profile, f.order_flow_imbalance]

/-- Environment for `SlippageEstimator.train_models`: the seeded train/test
split and the sklearn regressor fits (linear, and quantile at a given level). -/
structure SlipEnv where
  split : ℕ → List ℕ × List ℕ
  linFit : List (List ℝ) → List ℝ → List ℝ × ℝ
  qFit : ℝ → List (List ℝ) → List ℝ → List ℝ × ℝ

/-- Source: `SlippageEstimator` model state. A fitted linear model is a
coefficient vector and intercept; `quantile_models` maps each quantile to its
fitted model. -/
structure SlippageEstimator where
  use_quantile_regression : Bool
  is_trained : Bool
  scaler : ScalerState
  linear_model : List ℝ × ℝ
  quantile_models : List (ℝ × (List ℝ × ℝ))

/-- Source: `SlippageEstimator.__init__` (default quantile regression on,
untrained). -/
def SlippageEstimator.init (use_quantile_regression : Bool := true) :
    SlippageEstimator :=
  ⟨use_quantile_regression, false, ScalerState.empty, ([], 0), []⟩

/-- Source: `self.quantiles = [0.05, 0.25, 0.5, 0.75, 0.95]`. -/
def slipQuantiles : List ℝ := [0.05, 0.25, 0.5, 0.75, 0.95]

/-- The state written by a successful `SlippageEstimator.train_models` run:
80/20 split, scaler fitted on the training rows, fitted linear and quantile
models, and the trained flag set. The held-out evaluation metrics and
feature-name bookkeeping are logging-only and raise nothing for any input, so
they are not carried in the state. -/
noncomputable def slipFitState (env : SlipEnv) (est : SlippageEstimator)
    (features_list : List SlippageFeatures) (slippage_list : List ℝ) :
    SlippageEstimator :=
  let X := features_list.map slip_features_to_array
  let idx := env.split features_list.length
  let Xtr := rowsAt X idx.1
  let ytr := valsAt slippage_list 0 idx.1
  let scaler := fitScaler Xtr
  let XtrS := Xtr.map (scale_transform scaler)
  { est with
    is_trained := true
    scaler := scaler
    linear_model := env.linFit XtrS ytr
    quantile_models :=
      if est.use_quantile_regression then
        slipQuantiles.map (fun q => (q, env.qFit q XtrS ytr))
      else est.quantile_models }

/-- Source: `SlippageEstimator.train_models`. Mirrors the control flow: the
explicit length check, the minimum-sample check, then the fit pipeline of
`slipFitState`. -/
noncomputable def train_models (env : SlipEnv) (est : SlippageEstimator)
    (features_list : List SlippageFeatures) (slippage_list : List ℝ) :
    Except SkError SlippageEstimator :=
  if features_list.length ≠ slippage_list.length then .error .length_mismatch
  else if features_list.length < 10 then .error .insufficient_samples
  else .ok (slipFitState env est features_list slippage_list)

/-- Source: `SlippagePrediction` (slippage_estimation.py). -/
structure SlippagePrediction where
  expected_slippage : ℝ
  expected_slippage_bps : ℝ
  confidence_interval : ℝ × ℝ
  quantile_predictions : List (ℝ × ℝ)

open Classical in
/-- Source: `SlippageEstimator.predict_slippage` (default
`confidence_level=0.95`). `none` models the `ValueError` raised when the model
is untrained. The reference price for the bps conversion is the source's
hard-coded `50000`. -/
noncomputable def predict_slippage (est : SlippageEstimator)
    (features : SlippageFeatures) : Option SlippagePrediction :=
  if est.is_trained = false then none
  else
    let x := scale_transform est.scaler (slip_features_to_array features)
    let expected := dot est.linear_model.1 x + est.linear_model.2
    let qp := est.quantile_models.map (fun m => (m.1, dot m.2.1 x + m.2.2))
    let keys := qp.map (·.1)
    let ci :=
      if (0.5 - 0.05 / 2 : ℝ) ∈ keys ∧ (0.5 + 0.05 / 2 : ℝ) ∈ keys then
        (((qp.filter (fun p => p.1 = 0.5 - 0.05 / 2)).getLast?.map (·.2)).getD 0,
         ((qp.filter (fun p => p.1 = 0.5 + 0.05 / 2)).getLast?.map (·.2)).getD 0)
      else
        let std_estimate := if qp.isEmpty then expected * 0.1 else npStd (qp.map (·.2))
        (expected - 1.96 * std_estimate, expected + 1.96 * std_estimate)
    some { expected_slippage := expected
           expected_slippage_bps := expected / 50000 * 10000
           confidence_interval := ci
           quantile_predictions := qp }

/-! ## fee_calculator.py: MakerTakerPredictor -/

/-- Source: `OrderType` (fee_calculator.py). -/
inductive OrderType
  | maker
  | taker
deriving DecidableEq, Repr

/-- Source: `MakerTakerFeatures` (fee_calculator.py). -/
structure MakerTakerFeatures where
  order_size : ℝ
  order_size_relative : ℝ
  distance_to_mid : ℝ
  distance_to_mid_bps : ℝ
  market_depth_ratio : ℝ
  spread_ratio : ℝ
  volatility_recent : ℝ
  order_flow_imbalance : ℝ
  time_since_last_trade : ℝ
  market_momentum : ℝ
  volume_profile : ℝ

/-- Source: `MakerTakerPredictor._features_to_array`. -/
def mt_features_to_array (f : MakerTakerFeatures) : List ℝ :=
  [f.order_size, f.order_size_relative, f.distance_to_mid, f.distance_to_mid_bps,
   f.market_depth_ratio, f.spread_ratio, f.volatility_recent,
   f.order_flow_imbalance, f.time_since_last_trade, f.market_momentum,
   f.volume_profile]

/-- Environment for `MakerTakerPredictor.train_model`: the seeded stratified
split and the classifier fit, the latter yielding the per-row
`predict_proba` function (probabilities over the fitted classes). -/
structure MTEnv where
  split : ℕ → List ℕ × List ℕ
  clfFit : List (List ℝ) → List ℕ → (List ℝ → List ℝ)

/-- Source: `MakerTakerPredictor` model state. `classes` is the fitted model's
`classes_` (the sorted distinct training labels), which indexes the columns of
`predict_proba`. -/
structure MakerTakerPredictor where
  is_trained : Bool
  scaler : ScalerState
  classes : List ℕ
  probaFn : List ℝ → List ℝ

/-- Source: `MakerTakerPredictor.__init__` (untrained). -/
def MakerTakerPredictor.init : MakerTakerPredictor :=
  ⟨false, ScalerState.empty, [], fun _ => []⟩

/-- Sorted distinct labels, as `np.unique` / sklearn's `classes_`. -/
def sortedClasses (y : List ℕ) : List ℕ := y.dedup.insertionSort (· ≤ ·)

/-- Source: `MakerTakerPredictor.train_model`. Mirrors the control flow: length
check, minimum-sample check, label encoding (`1` for maker, `0` for taker),
sklearn's stratified-split validation (each class needs at least two members
and the train/test sizes must cover every class), scaler and classifier fit on
the training rows, then the held-out evaluation — whose
`predict_proba(X_test_scaled)[:, 1]` read raises `IndexError` whenever the
fitted model has fewer than two classes, before `is_trained` is ever set. -/
noncomputable def train_model (env : MTEnv) (p : MakerTakerPredictor)
    (features_list : List MakerTakerFeatures) (order_types : List OrderType) :
    Except SkError MakerTakerPredictor :=
  if features_list.length ≠ order_types.length then .error .length_mismatch
  else if features_list.length < 10 then .error .insufficient_samples
  else
    let n := features_list.length
    let X := features_list.map mt_features_to_array
    let y := order_types.map (fun t => if t = OrderType.maker then 1 else 0)
    let classes := sortedClasses y
    let n_test := (n + 4) / 5
    let n_train := n - n_test
    if ¬ classes.all (fun c => 2 ≤ y.count c) then .error .stratify_failure
    else if n_train < classes.length ∨ n_test < classes.length then
      .error .stratify_failure
    else
      let idx := env.split n
      let Xtr := rowsAt X idx.1
      let ytr := valsAt y 0 idx.1
      let scaler := fitScaler Xtr
      let XtrS := Xtr.map (scale_transform scaler)
      let probaFn := env.clfFit XtrS ytr
      let fitted_classes := sortedClasses ytr
      if fitted_classes.length ≤ 1 then .error .class_index_out_of_range
      else .ok { is_trained := true
                 scaler := scaler
                 classes := fitted_classes
                 probaFn := probaFn }

/-- Source: `MakerTakerPredictor.predict_maker_probability`. `none` models the
untrained `ValueError` (and the same single-class `[0, 1]` column read). -/
noncomputable def predict_maker_probability (p : MakerTakerPredictor)
    (features : MakerTakerFeatures) : Option ℝ :=
  if p.is_trained = false then none
  else if p.classes.length ≤ 1 then none
  else some ((p.probaFn (scale_transform p.scaler (mt_features_to_array features))).getD 1 0)

/-! ## trade_simulator.py: TradeSimulator

The orchestrator receives snapshots from `websocket_client.py`, whose levels
are plain `(price, size)` tuples (not `OrderbookLevel` objects), and indexes
them as `orderbook.asks[0][0]`; the simulator-side snapshot is therefore
modelled separately, levels as pairs over `ℝ`. -/

/-- Snapshot as constructed by `OKXWebSocketClient._handle_message`: level
lists of `(price, size)` pairs. -/
structure SimOrderbook where
  timestamp : ℝ
  symbol : String
  bids : List (ℝ × ℝ)
  asks : List (ℝ × ℝ)

/-- First-level price of a side, `levels[0][0] if levels else 0`. -/
def headPrice (levels : List (ℝ × ℝ)) : ℝ := (levels.head?.map (·.1)).getD 0

/-- `calculate_depth(orders, levels)` of slippage_estimation.py: quantity
summed over the first `levels` entries. -/
def depthOf (orders : List (ℝ × ℝ)) (levels : ℕ) : ℝ :=
  ((orders.take levels).map (·.2)).sum

/-- Source: `TradeParameters` (trade_simulator.py). -/
structure TradeParameters where
  trade_size : ℝ
  order_type : String
  side : String
  limit_price : Option ℝ := none
  time_horizon : ℝ := 300

/-- The dict returned by `TradeSimulator._get_historical_data`. -/
structure HistoricalData where
  prices : List ℝ
  volumes : List ℝ
  spreads : List ℝ
  timestamps : List ℝ

/-- Fraction of the day elapsed at wall-clock time `now` (models the
`datetime.now()`-based `time_of_day` feature). -/
noncomputable def time_of_day_frac (now : ℝ) : ℝ :=
  (now - 86400 * ⌊now / 86400⌋) / 86400

/-- Source: `SlippageEstimator.extract_features` (slippage_estimation.py),
with the wall clock passed explicitly. The `if prices/volumes` truthiness
checks on floats are modelled as `≠ 0` tests where the source relies on them.
The historical dict always carries its four keys, so `if historical_data:`
is taken. -/
noncomputable def slip_extract_features (ob : SimOrderbook) (trade_size : ℝ)
    (hist : HistoricalData) (now : ℝ) : SlippageFeatures :=
  let bid_price := headPrice ob.bids
  let ask_price := headPrice ob.asks
  let mid_price := if bid_price ≠ 0 ∧ ask_price ≠ 0 then (bid_price + ask_price) / 2 else 0
  let bid_ask_spread := ask_price - bid_price
  let bid_ask_spread_bps := if 0 < mid_price then bid_ask_spread / mid_price * 10000 else 0
  let market_depth_5 := depthOf ob.bids 5 + depthOf ob.asks 5
  let bid_volume := depthOf ob.bids 5
  let ask_volume := depthOf ob.asks 5
  let total_volume := bid_volume + ask_volume
  let returns := logReturns hist.prices
  let volatility :=
    if 1 < hist.prices.length then (if 0 < returns.length then npStd returns else 0) else 0
  let momentum :=
    if 1 < hist.prices.length then
      (if hist.prices.headD 0 ≠ 0 then
        (hist.prices.getLastD 0 - hist.prices.headD 0) / hist.prices.headD 0
      else 0)
    else 0
  let volume_profile :=
    if hist.volumes ≠ [] then
      (if 0 < npMean hist.volumes then hist.volumes.getLastD 0 / npMean hist.volumes else 1)
    else 1
  { trade_size := trade_size
    trade_size_relative := if 0 < market_depth_5 then trade_size / market_depth_5 else 0
    bid_ask_spread := bid_ask_spread
    bid_ask_spread_bps := bid_ask_spread_bps
    market_depth_1 := depthOf ob.bids 1 + depthOf ob.asks 1
    market_depth_5 := market_depth_5
    market_depth_10 := depthOf ob.bids 10 + depthOf ob.asks 10
    volatility := volatility
    momentum := momentum
    time_of_day := time_of_day_frac now
    volume_profile := volume_profile
    order_flow_imbalance :=
      if 0 < total_volume then (bid_volume - ask_volume) / total_volume else 0 }

/-- Source: `MakerTakerPredictor.extract_features` (fee_calculator.py). -/
noncomputable def mt_extract_features (ob : SimOrderbook) (order_size : ℝ)
    (order_price : ℝ) (hist : HistoricalData) : MakerTakerFeatures :=
  let bid_price := headPrice ob.bids
  let ask_price := headPrice ob.asks
  let mid_price := if bid_price ≠ 0 ∧ ask_price ≠ 0 then (bid_price + ask_price) / 2 else 0
  let distance_to_mid := |order_price - mid_price|
  let bid_depth := depthOf ob.bids 5
  let ask_depth := depthOf ob.asks 5
  let total_depth := bid_depth + ask_depth
  let current_spread := ask_price - bid_price
  let returns := logReturns hist.prices
  { order_size := order_size
    order_size_relative := if 0 < total_depth then order_size / total_depth else 0
    distance_to_mid := distance_to_mid
    distance_to_mid_bps := if 0 < mid_price then distance_to_mid / mid_price * 10000 else 0
    market_depth_ratio := if 0 < ask_depth then bid_depth / ask_depth else 1
    spread_ratio :=
      if hist.spreads ≠ [] then
        (if 0 < npMean hist.spreads then current_spread / npMean hist.spreads else 1)
      else 1
    volatility_recent :=
      if 1 < hist.prices.length then (if 0 < returns.length then npStd returns else 0) else 0
    order_flow_imbalance :=
      if 0 < total_depth then (bid_depth - ask_depth) / total_depth else 0
    time_since_last_trade :=
      if hist.timestamps ≠ [] then ob.timestamp - hist.timestamps.getLastD 0 else 0
    market_momentum :=
      if 1 < hist.prices.length then
        (if hist.prices.headD 0 ≠ 0 then
          (hist.prices.getLastD 0 - hist.prices.headD 0) / hist.prices.headD 0
        else 0)
      else 0
    volume_profile :=
      if hist.volumes ≠ [] then
        (if 0 < npMean hist.volumes then hist.volumes.getLastD 0 / npMean hist.volumes else 1)
      else 1 }

/-- The dict returned by `IntegratedCostCalculator.calculate_total_cost`. -/
structure TotalCostInfo where
  trade_amount : ℝ
  exchange_fee : ℝ
  slippage_cost : ℝ
  market_impact_cost : ℝ
  total_cost : ℝ
  maker_probability : ℝ
  fee_breakdown : TradingCostBreakdown ℝ
  cost_bps : ℝ

/-- Source: `IntegratedCostCalculator.calculate_total_cost`. Untrained
maker/taker model defaults the maker probability to `0.5`; `none` models the
exceptions of the trained prediction path and of a zero trade amount. -/
noncomputable def calculate_total_cost (fc : FeeCalculator ℝ)
    (mtp : MakerTakerPredictor) (ob : SimOrderbook) (trade_size : ℝ)
    (order_price : ℝ) (slippage_estimate : ℝ) (market_impact : ℝ)
    (hist : HistoricalData) : Option TotalCostInfo :=
  let trade_amount := trade_size * order_price
  let maker_prob? : Option ℝ :=
    if mtp.is_trained then
      predict_maker_probability mtp (mt_extract_features ob trade_size order_price hist)
    else some 0.5
  match maker_prob? with
  | none => none
  | some maker_prob =>
    match calculate_expected_fee fc trade_amount maker_prob with
    | none => none
    | some fee_breakdown =>
      some { trade_amount := trade_amount
             exchange_fee := fee_breakdown.expected_fee
             slippage_cost := slippage_estimate
             market_impact_cost := market_impact
             total_cost := fee_breakdown.expected_fee + slippage_estimate + market_impact
             maker_probability := maker_prob
             fee_breakdown := fee_breakdown
             cost_bps := (fee_breakdown.expected_fee + slippage_estimate + market_impact) /
               trade_amount * 10000 }

/-- Source: `TradeCostEstimate` (trade_simulator.py). The optional strategy
summary carries `(expected_cost, variance, utility)`. -/
structure TradeCostEstimate where
  timestamp : ℝ
  trade_params : TradeParameters
  current_price : ℝ
  exchange_fee : ℝ
  slippage_cost : ℝ
  market_impact : ℝ
  total_cost : ℝ
  cost_bps : ℝ
  maker_probability : ℝ
  slippage_confidence : ℝ
  bid_ask_spread : ℝ
  market_depth : ℝ
  volatility : ℝ
  optimal_strategy : Option (ℝ × ℝ × ℝ)

/-- Source: `TradeSimulator` state relevant to estimation: the latest snapshot,
the rolling deques, and the models (the Almgren-Chriss model — adaptive or
plain — is represented by its current parameters, which is all
`estimate_trade_cost` reads). -/
structure TradeSimulator where
  current_orderbook : Option SimOrderbook
  price_history : List ℝ
  volume_history : List ℝ
  spread_history : List ℝ
  fee_calculator : FeeCalculator ℝ
  maker_taker_predictor : MakerTakerPredictor
  slippage_estimator : SlippageEstimator
  ac_params : AlmgrenChrissParams

/-- Source: `TradeSimulator._get_historical_data`. -/
noncomputable def get_historical_data (st : TradeSimulator) (now : ℝ) :
    HistoricalData :=
  { prices := st.price_history
    volumes := st.volume_history
    spreads := st.spread_history
    timestamps := (List.range st.price_history.length).map
      (fun (i : ℕ) => now - (i : ℝ)) }

/-- Execution-price resolution of `estimate_trade_cost`: best ask for a market
buy, best bid for a market sell (`0` on an empty side), otherwise
`limit_price or 0`. -/
def resolved_execution_price (ob : SimOrderbook) (params : TradeParameters) : ℝ :=
  if params.order_type = "market" then
    if params.side = "buy" then headPrice ob.asks else headPrice ob.bids
  else params.limit_price.getD 0

/-- Source: `TradeSimulator.estimate_trade_cost`, with the wall clock passed
explicitly. Every failure — missing snapshot, non-positive resolved price, or
any exception inside the `try` block (`eta == 0` or `int(time_horizon/10) == 0`
in the strategy computation, a zero trade amount, a trained-model prediction
error) — returns the same undifferentiated `None`. The spec's §6 estimate
request guarantees `time_horizon > 0`, so `int(time_horizon/10)` is modelled
as a floor. -/
noncomputable def estimate_trade_cost (st : TradeSimulator)
    (params : TradeParameters) (now : ℝ) : Option TradeCostEstimate :=
  match st.current_orderbook with
  | none => none
  | some ob =>
    let execution_price := resolved_execution_price ob params
    if execution_price ≤ 0 then none
    else
      let historical := get_historical_data st now
      let n_intervals := (⌊params.time_horizon / 10⌋).toNat
      match calculate_optimal_strategy st.ac_params params.trade_size n_intervals with
      | none => none
      | some strategy =>
        let impact_info := calculate_market_impact st.ac_params params.trade_size 0 strategy
        let market_impact := impact_info.total_impact
        let slip? : Option (ℝ × ℝ) :=
          if st.slippage_estimator.is_trained then
            (predict_slippage st.slippage_estimator
              (slip_extract_features ob params.trade_size historical now)).map
              (fun pr => (pr.expected_slippage, 0.8))
          else
            let spread := if ob.asks ≠ [] ∧ ob.bids ≠ [] then
              headPrice ob.asks - headPrice ob.bids else 0
            some (spread * 0.5, 0.5)
        match slip? with
        | none => none
        | some slip =>
          match calculate_total_cost st.fee_calculator st.maker_taker_predictor ob
            params.trade_size execution_price slip.1 market_impact historical with
          | none => none
          | some info =>
            let bid_ask_spread := if ob.asks ≠ [] ∧ ob.bids ≠ [] then
              headPrice ob.asks - headPrice ob.bids else 0
            let returns := logReturns (pySliceLast st.price_history 100)
            let volatility :=
              if 1 < st.price_history.length then
                (if 0 < returns.length then npStd returns else 0)
              else 0
            some { timestamp := now
                   trade_params := params
                   current_price := execution_price
                   exchange_fee := info.exchange_fee
                   slippage_cost := slip.1
                   market_impact := market_impact
                   total_cost := info.total_cost
                   cost_bps := info.cost_bps
                   maker_probability := info.maker_probability
                   slippage_confidence := slip.2
                   bid_ask_spread := bid_ask_spread
                   market_depth := depthOf ob.bids 5 + depthOf ob.asks 5
                   volatility := volatility
                   optimal_strategy :=
                     some (strategy.expected_cost, strategy.variance, strategy.utility) }

/-! ## Spec-side definitions (formalising the spec's words, for comparison) -/

/-- Sample standard deviation in the standard statistical sense (Bessel's
correction, `ddof=1`): `sqrt(sum((x - mean)^2) / (n - 1))`. Formalises the
spec's "sample standard deviation"; to be compared with the source's `np.std`
(population convention, `ddof=0`). -/
noncomputable def sampleStd (l : List ℝ) : ℝ :=
  Real.sqrt (((l.map (fun x => (x - npMean l) ^ 2)).sum) / ((l.length : ℝ) - 1))

/-- Volatility as worded by the spec: the sample standard deviation of the
log-returns over the most recent `window` mid prices, absent when the history
is shorter than `window`. -/
noncomputable def specVolatility (a : OrderbookAnalyzer) (window : ℕ) : Option ℝ :=
  if a.price_history.length < window then none
  else some (sampleStd (logReturns (ratCastList (lastN a.price_history window))))

/-! ## Concrete inputs used by witnesses and counterexamples -/

/-- A book whose ask side has a single level: any partial fill executes
entirely at price 100. -/
def oneLevelBook : OrderbookSnapshot :=
  ⟨0, "OKX", "BTC-USDT-SWAP", [], [⟨100, 5⟩]⟩

/-- A two-level ask book for the C2 witness. -/
def twoLevelBook : OrderbookSnapshot :=
  ⟨0, "OKX", "BTC-USDT-SWAP", [], [⟨100, 2⟩, ⟨101, 3⟩]⟩

/-- A decoded message containing one well-formed bid level and one bid level
whose price fails numeric coercion. -/
def mixedLevelsMsg : RawMessage :=
  ⟨.absent, none, none, [[.num 100, .num 1], [.bad, .num 2]], [[.num 101, .num 1]]⟩

/-- A decoded message with an out-of-order coercible ask side, a short bid
level (dropped), and no timestamp. -/
def sortableMsg : RawMessage :=
  ⟨.absent, none, none, [[.num 100, .num 1], [.num 99]],
   [[.numStr 102, .num 1], [.num 101, .num 2]]⟩

/-- Analyzer with mid-price history `[1, 2, 1]` (capacity 1000). -/
def threePriceAnalyzer : OrderbookAnalyzer := ⟨1000, [1, 2, 1], [], [], []⟩

/-- The OKX-like fee table of `TradeSimulator._initialize_models`, over ℚ. -/
def okxTiersQ : FeeStructure ℚ :=
  { maker_fee_rate := 0.0002
    taker_fee_rate := 0.0005
    volume_tiers :=
      [(0, 0.0002, 0.0005), (1000000, 0.00015, 0.00045),
       (5000000, 0.0001, 0.0004), (25000000, 0.00008, 0.00035),
       (100000000, 0.00006, 0.0003)] }

/-- A fee calculator with accumulated daily volume 1,000,000 (the $1M tier). -/
def millionVolumeCalc : FeeCalculator ℚ := ⟨okxTiersQ, 1000000⟩

/-- The OKX-like fee table of `TradeSimulator._initialize_models`, over ℝ. -/
noncomputable def okxTiersR : FeeStructure ℝ :=
  { maker_fee_rate := 0.0002
    taker_fee_rate := 0.0005
    volume_tiers :=
      [(0, 0.0002, 0.0005), (1000000, 0.00015, 0.00045),
       (5000000, 0.0001, 0.0004), (25000000, 0.00008, 0.00035),
       (100000000, 0.00006, 0.0003)] }

/-- The initial Almgren-Chriss parameters of `_initialize_models`. -/
noncomputable def initACParams : AlmgrenChrissParams :=
  ⟨0.02, 0.1, 0.00001, 0.0001, 300⟩

/-- The spec §8 end-to-end snapshot: bid 49990 (qty 2), ask 50010 (qty 2). -/
noncomputable def sec8Book : SimOrderbook :=
  ⟨0, "BTC-USDT-SWAP", [(49990, 2)], [(50010, 2)]⟩

/-- Simulator state holding the §8 snapshot with untrained models and the
initial model configuration. -/
noncomputable def sec8Simulator : TradeSimulator :=
  { current_orderbook := some sec8Book
    price_history := []
    volume_history := []
    spread_history := []
    fee_calculator := ⟨okxTiersR, 0⟩
    maker_taker_predictor := MakerTakerPredictor.init
    slippage_estimator := SlippageEstimator.init
    ac_params := initACParams }

/-- The spec §8 market buy of size 1. -/
def sec8Params : TradeParameters := ⟨1, "market", "buy", none, 300⟩

/-- Simulator state with no market data at all. -/
noncomputable def noDataSimulator : TradeSimulator :=
  { sec8Simulator with current_orderbook := none }

/-- Simulator state whose snapshot has an empty ask side, so a market buy
resolves a zero execution price. -/
noncomputable def emptyAskSimulator : TradeSimulator :=
  { sec8Simulator with
    current_orderbook := some ⟨0, "BTC-USDT-SWAP", [(49990, 2)], []⟩ }

/-- Deterministic stand-in for the seeded `train_test_split`: the last
`n - ceil(n/5)` indices train, the first `ceil(n/5)` test. -/
def defSplit : ℕ → List ℕ × List ℕ :=
  fun n => ((List.range n).drop ((n + 4) / 5), (List.range n).take ((n + 4) / 5))

/-- Concrete slippage-training environment: the deterministic split and fits
returning the constant model `x ↦ 3`. -/
def constSlipEnv : SlipEnv :=
  { split := defSplit
    linFit := fun _ _ => ([], 3)
    qFit := fun _ _ _ => ([], 3) }

/-- Concrete maker/taker-training environment. -/
def constMTEnv : MTEnv :=
  { split := defSplit
    clfFit := fun _ _ => fun _ => [] }

/-- All-zero slippage features. -/
def zeroSlipFeatures : SlippageFeatures := ⟨0, 0, 0, 0, 0, 0, 0, 0, 0, 0, 0, 0⟩

/-- All-zero maker/taker features. -/
def zeroMTFeatures : MakerTakerFeatures := ⟨0, 0, 0, 0, 0, 0, 0, 0, 0, 0, 0⟩

/-! ## Streams of appended analyzer values (for the FIFO theorems) -/

/-- All mid prices appended over a snapshot stream, in arrival order. -/
def midStream (obs : List OrderbookSnapshot) : List ℚ :=
  obs.filterMap (·.mid_price)

/-- All timestamps appended over a snapshot stream (appended exactly when the
snapshot has a mid price). -/
def tsStream (obs : List OrderbookSnapshot) : List ℚ :=
  obs.filterMap (fun ob => ob.mid_price.map (fun _ => ob.timestamp))

/-- All spreads appended over a snapshot stream. -/
def spreadStream (obs : List OrderbookSnapshot) : List ℚ :=
  obs.filterMap (·.spread)

/-- All top-level volumes appended over a snapshot stream (one per update). -/
def volStream (obs : List OrderbookSnapshot) : List ℚ :=
  obs.map topVolume

/-! ## Helper lemmas: bounded FIFO suffixes -/

theorem length_lastN (l : List α) (n : ℕ) : (lastN l n).length = min n l.length := by
  simp [lastN]
  omega

theorem length_lastN_le (l : List α) (n : ℕ) : (lastN l n).length ≤ n := by
  rw [length_lastN]; exact Nat.min_le_left _ _

theorem lastN_of_length_le (l : List α) (n : ℕ) (h : l.length ≤ n) : lastN l n = l := by
  simp [lastN, Nat.sub_eq_zero_of_le h]

theorem trimHistory_of_length_le (l : List α) (n : ℕ) (h : l.length ≤ n) :
    trimHistory l n = l := by
  simp [trimHistory]
  omega

/-- Appending one element and trimming to capacity keeps exactly the most
recent `n` elements. -/
theorem lastN_append_one (xs : List α) (x : α) (n : ℕ) :
    lastN (xs ++ [x]) n = trimHistory (lastN xs n ++ [x]) n := by
  rcases Nat.lt_or_ge xs.length n with h | h
  · rw [lastN_of_length_le xs n (le_of_lt h),
      lastN_of_length_le (xs ++ [x]) n (by simp; omega),
      trimHistory_of_length_le _ n (by simp; omega)]
  · have hlen : (lastN xs n).length = n := by rw [length_lastN]; omega
    unfold trimHistory
    rw [if_pos (by simp [hlen])]
    unfold lastN
    rw [List.drop_append_eq_append_drop, List.drop_append_eq_append_drop,
      List.drop_drop]
    have e1 : (xs ++ [x]).length - n = 1 + (xs.length - n) := by simp; omega
    have e2 : (xs ++ [x]).length - n - xs.length =
        1 - (List.drop (xs.length - n) xs).length := by
      simp [List.length_drop]; omega
    rw [e2, e1, Nat.add_comm 1 (xs.length - n)]

/-! ## C10: bounded FIFO rolling histories -/

theorem trimHistory_lastN (P : List α) (n : ℕ) :
    trimHistory (lastN P n) n = lastN P n :=
  trimHistory_of_length_le _ _ (length_lastN_le P n)

theorem midStream_cons (ob : OrderbookSnapshot) (rest : List OrderbookSnapshot) :
    midStream (ob :: rest) = midStream [ob] ++ midStream rest := by
  simp only [midStream, List.filterMap_cons, List.filterMap_nil]
  cases ob.mid_price <;> simp

theorem tsStream_cons (ob : OrderbookSnapshot) (rest : List OrderbookSnapshot) :
    tsStream (ob :: rest) = tsStream [ob] ++ tsStream rest := by
  simp only [tsStream, List.filterMap_cons, List.filterMap_nil]
  cases ob.mid_price <;> simp

theorem spreadStream_cons (ob : OrderbookSnapshot) (rest : List OrderbookSnapshot) :
    spreadStream (ob :: rest) = spreadStream [ob] ++ spreadStream rest := by
  simp only [spreadStream, List.filterMap_cons, List.filterMap_nil]
  cases ob.spread <;> simp

theorem volStream_cons (ob : OrderbookSnapshot) (rest : List OrderbookSnapshot) :
    volStream (ob :: rest) = volStream [ob] ++ volStream rest := by
  simp [volStream]

/-- Invariant step lemma: one `update` maps "history is the `max`-suffix of
the appended stream" across one appended element. -/
theorem update_histories (a : OrderbookAnalyzer) (ob : OrderbookSnapshot)
    (P T S V : List ℚ)
    (hP : a.price_history = lastN P a.max_history)
    (hT : a.timestamp_history = lastN T a.max_history)
    (hS : a.spread_history = lastN S a.max_history)
    (hV : a.volume_history = lastN V a.max_history) :
    (a.update ob).price_history = lastN (P ++ midStream [ob]) a.max_history ∧
    (a.update ob).timestamp_history = lastN (T ++ tsStream [ob]) a.max_history ∧
    (a.update ob).spread_history = lastN (S ++ spreadStream [ob]) a.max_history ∧
    (a.update ob).volume_history = lastN (V ++ volStream [ob]) a.max_history := by
  refine ⟨?_, ?_, ?_, ?_⟩
  · rcases hmid : ob.mid_price with _ | m
    · simp only [OrderbookAnalyzer.update, hmid, midStream, List.filterMap_cons,
        List.filterMap_nil, List.append_nil]
      rw [hP, trimHistory_lastN]
    · simp only [OrderbookAnalyzer.update, hmid, midStream, List.filterMap_cons,
        List.filterMap_nil]
      rw [hP, ← lastN_append_one]
  · rcases hmid : ob.mid_price with _ | m
    · simp only [OrderbookAnalyzer.update, hmid, tsStream, List.filterMap_cons,
        List.filterMap_nil]
      rw [hT, trimHistory_lastN]
      simp
    · simp only [OrderbookAnalyzer.update, hmid, tsStream, List.filterMap_cons,
        List.filterMap_nil]
      rw [hT, ← lastN_append_one]
      simp
  · rcases hsp : ob.spread with _ | s
    · simp only [OrderbookAnalyzer.update, hsp, spreadStream, List.filterMap_cons,
        List.filterMap_nil, List.append_nil]
      rw [hS, trimHistory_lastN]
    · simp only [OrderbookAnalyzer.update, hsp, spreadStream, List.filterMap_cons,
        List.filterMap_nil]
      rw [hS, ← lastN_append_one]
  · simp only [OrderbookAnalyzer.update, volStream, List.map_cons, List.map_nil]
    rw [hV, ← lastN_append_one]

/-- Folding updates preserves the suffix characterisation of all four
histories. -/
theorem fold_update_histories (obs : List OrderbookSnapshot)
    (a : OrderbookAnalyzer) (P T S V : List ℚ)
    (hP : a.price_history = lastN P a.max_history)
    (hT : a.timestamp_history = lastN T a.max_history)
    (hS : a.spread_history = lastN S a.max_history)
    (hV : a.volume_history = lastN V a.max_history) :
    (obs.foldl OrderbookAnalyzer.update a).price_history =
      lastN (P ++ midStream obs) a.max_history ∧
    (obs.foldl OrderbookAnalyzer.update a).timestamp_history =
      lastN (T ++ tsStream obs) a.max_history ∧
    (obs.foldl OrderbookAnalyzer.update a).spread_history =
      lastN (S ++ spreadStream obs) a.max_history ∧
    (obs.foldl OrderbookAnalyzer.update a).volume_history =
      lastN (V ++ volStream obs) a.max_history := by
  induction obs generalizing a P T S V with
  | nil => simpa [midStream, tsStream, spreadStream, volStream] using
      ⟨hP, hT, hS, hV⟩
  | cons ob rest ih =>
    obtain ⟨hP1, hT1, hS1, hV1⟩ := update_histories a ob P T S V hP hT hS hV
    have hmax : (a.update ob).max_history = a.max_history := rfl
    have := ih (a.update ob) (P ++ midStream [ob]) (T ++ tsStream [ob])
      (S ++ spreadStream [ob]) (V ++ volStream [ob])
      (hmax ▸ hP1) (hmax ▸ hT1) (hmax ▸ hS1) (hmax ▸ hV1)
    rw [midStream_cons, tsStream_cons, spreadStream_cons, volStream_cons,
      ← List.append_assoc, ← List.append_assoc, ← List.append_assoc,
      ← List.append_assoc]
    simpa [hmax] using this

/-- C10: after any sequence of analyzer update calls starting from a fresh
analyzer of capacity `maxh` (default 1000), each rolling history — mid price,
timestamp, spread, volume — is exactly the suffix of the appended value stream
of length at most `maxh`: the retained entries are the most recently appended
ones in arrival order (oldest evicted first), and no history ever exceeds the
capacity. -/
theorem rolling_history_bounded_fifo (maxh : ℕ) (obs : List OrderbookSnapshot) :
    (obs.foldl OrderbookAnalyzer.update (OrderbookAnalyzer.init maxh)).price_history =
      lastN (midStream obs) maxh ∧
    (obs.foldl OrderbookAnalyzer.update (OrderbookAnalyzer.init maxh)).timestamp_history =
      lastN (tsStream obs) maxh ∧
    (obs.foldl OrderbookAnalyzer.update (OrderbookAnalyzer.init maxh)).spread_history =
      lastN (spreadStream obs) maxh ∧
    (obs.foldl OrderbookAnalyzer.update (OrderbookAnalyzer.init maxh)).volume_history =
      lastN (volStream obs) maxh ∧
    (obs.foldl OrderbookAnalyzer.update (OrderbookAnalyzer.init maxh)).price_history.length ≤ maxh ∧
    (obs.foldl OrderbookAnalyzer.update (OrderbookAnalyzer.init maxh)).timestamp_history.length ≤ maxh ∧
    (obs.foldl OrderbookAnalyzer.update (OrderbookAnalyzer.init maxh)).spread_history.length ≤ maxh ∧
    (obs.foldl OrderbookAnalyzer.update (OrderbookAnalyzer.init maxh)).volume_history.length ≤ maxh := by
  have hnil : ∀ n : ℕ, ([] : List ℚ) = lastN [] n := by intro n; simp [lastN]
  obtain ⟨h1, h2, h3, h4⟩ := fold_update_histories obs (OrderbookAnalyzer.init maxh)
    [] [] [] [] (hnil maxh) (hnil maxh) (hnil maxh) (hnil maxh)
  simp only [OrderbookAnalyzer.init, List.nil_append] at h1 h2 h3 h4
  exact ⟨h1, h2, h3, h4,
    h1 ▸ length_lastN_le _ maxh, h2 ▸ length_lastN_le _ maxh,
    h3 ▸ length_lastN_le _ maxh, h4 ▸ length_lastN_le _ maxh⟩

/-! ## C2: impact price of greedy book walking -/

theorem totalDepth_cons (l : OrderbookLevel) (ls : List OrderbookLevel) :
    totalDepth (l :: ls) = l.quantity + totalDepth ls := by
  simp [totalDepth, qsum]

theorem totalDepth_nonneg (ls : List OrderbookLevel)
    (h : ∀ lv ∈ ls, 0 ≤ lv.quantity) : 0 ≤ totalDepth ls := by
  induction ls with
  | nil => simp [totalDepth, qsum]
  | cons l ls ih =>
    rw [totalDepth_cons]
    have := h l (by simp)
    have := ih (fun lv hv => h lv (by simp [hv]))
    linarith

/-- The remaining quantity after the fill loop is the unfillable excess. -/
theorem impactLoop_remaining (ls : List OrderbookLevel) (rem total : ℚ)
    (hrem : 0 ≤ rem) (hq : ∀ lv ∈ ls, 0 ≤ lv.quantity) :
    (impactLoop ls rem total).2 = max (rem - totalDepth ls) 0 := by
  induction ls generalizing rem total with
  | nil =>
    simp only [impactLoop, totalDepth, qsum, List.map_nil, List.foldr_nil, sub_zero]
    exact (max_eq_left hrem).symm
  | cons l ls ih =>
    have hql : 0 ≤ l.quantity := hq l (by simp)
    have hqls : ∀ lv ∈ ls, 0 ≤ lv.quantity := fun lv hv => hq lv (by simp [hv])
    have hd : 0 ≤ totalDepth ls := totalDepth_nonneg ls hqls
    rw [totalDepth_cons]
    by_cases hr : rem ≤ 0
    · have : rem = 0 := le_antisymm hr hrem
      subst this
      simp only [impactLoop, if_pos le_rfl]
      have h0 : 0 - (l.quantity + totalDepth ls) ≤ 0 := by linarith
      rw [max_eq_right h0]
    · push_neg at hr
      simp only [impactLoop, if_neg (not_le.mpr hr)]
      rw [ih (rem - min rem l.quantity) (total + min rem l.quantity * l.price)
        (by linarith [min_le_left rem l.quantity]) hqls]
      rcases le_total rem l.quantity with hc | hc
      · rw [min_eq_left hc]
        have h1 : rem - rem - totalDepth ls ≤ 0 := by linarith
        have h2 : rem - (l.quantity + totalDepth ls) ≤ 0 := by linarith
        rw [max_eq_right h1, max_eq_right h2]
      · rw [min_eq_right hc]
        congr 1
        ring

/-- Cost bounds for the fill loop: the accumulated cost of the consumed
quantity is bracketed by any uniform price bounds on the levels. -/
theorem impactLoop_cost_bounds (ls : List OrderbookLevel) (rem total L U : ℚ)
    (hrem : 0 ≤ rem)
    (hq : ∀ lv ∈ ls, 0 ≤ lv.quantity)
    (hp : ∀ lv ∈ ls, L ≤ lv.price ∧ lv.price ≤ U) :
    L * (rem - (impactLoop ls rem total).2) + total ≤ (impactLoop ls rem total).1 ∧
    (impactLoop ls rem total).1 ≤ U * (rem - (impactLoop ls rem total).2) + total := by
  induction ls generalizing rem total with
  | nil => simp [impactLoop]
  | cons l ls ih =>
    have hql : 0 ≤ l.quantity := hq l (by simp)
    have hpl := hp l (by simp)
    have hqls : ∀ lv ∈ ls, 0 ≤ lv.quantity := fun lv hv => hq lv (by simp [hv])
    have hpls : ∀ lv ∈ ls, L ≤ lv.price ∧ lv.price ≤ U := fun lv hv => hp lv (by simp [hv])
    by_cases hr : rem ≤ 0
    · simp [impactLoop, if_pos hr]
    · push_neg at hr
      simp only [impactLoop, if_neg (not_le.mpr hr)]
      have hc0 : 0 ≤ min rem l.quantity := le_min (le_of_lt hr) hql
      have hrem' : 0 ≤ rem - min rem l.quantity := by
        linarith [min_le_left rem l.quantity]
      obtain ⟨ihl, ihr⟩ := ih (rem - min rem l.quantity)
        (total + min rem l.quantity * l.price) hrem' hqls hpls
      constructor
      · have : L * (min rem l.quantity) ≤ min rem l.quantity * l.price := by
          rw [mul_comm (min rem l.quantity) l.price]
          exact mul_le_mul_of_nonneg_right hpl.1 hc0
        nlinarith [ihl]
      · have : min rem l.quantity * l.price ≤ U * (min rem l.quantity) := by
          rw [mul_comm (min rem l.quantity) l.price]
          exact mul_le_mul_of_nonneg_right hpl.2 hc0
        nlinarith [ihr]

/-- C2 (amended): for every snapshot with nonnegative level quantities, every
positive quantity and every side, `calculate_impact_price` returns `none`
("insufficient liquidity") exactly when the quantity exceeds the total depth
of the consumed side (asks for a buy, bids for a sell); otherwise it returns
the volume-weighted average fill price of greedy consumption, and that price
lies inclusively between any lower and upper bound on the level prices of that
side — in particular, for a price-sorted book, between the best and worst
level prices inclusive. (The claim's strict "strictly between" fails, e.g.
when the whole fill executes at a single price level.) -/
theorem impact_core_spec (levels : List OrderbookLevel) (quantity : ℚ)
    (hq : 0 < quantity) (hlv : ∀ lv ∈ levels, 0 ≤ lv.quantity) :
    ((if levels.isEmpty then none
      else
        let r := impactLoop levels quantity 0
        if 0 < r.2 then none else some (r.1 / quantity)) = none ↔
      totalDepth levels < quantity) ∧
    (∀ p L U,
      (if levels.isEmpty then none
       else
         let r := impactLoop levels quantity 0
         if 0 < r.2 then none else some (r.1 / quantity)) = some p →
      (∀ lv ∈ levels, L ≤ lv.price ∧ lv.price ≤ U) →
      L ≤ p ∧ p ≤ U) := by
  have hrem := impactLoop_remaining levels quantity 0 (le_of_lt hq) hlv
  by_cases hemp : levels.isEmpty
  · have hnil : levels = [] := by
      cases h : levels
      · rfl
      · rw [h] at hemp; simp at hemp
    subst hnil
    constructor
    · simp [totalDepth, qsum, hq]
    · intro p L U hp
      simp at hp
  · rw [if_neg hemp]
    constructor
    · constructor
      · intro hnone
        by_cases hpos : 0 < (impactLoop levels quantity 0).2
        · rw [hrem] at hpos
          rcases max_cases (quantity - totalDepth levels) 0 with
            ⟨he, _⟩ | ⟨he, hl⟩
          · rw [he] at hpos; linarith
          · rw [he] at hpos; linarith
        · simp only [if_neg hpos] at hnone
          exact absurd hnone (by simp)
      · intro hlt
        rw [if_pos (by rw [hrem]; exact lt_max_of_lt_left (by linarith))]
    · intro p L U hp hbounds
      by_cases hpos : 0 < (impactLoop levels quantity 0).2
      · simp only [if_pos hpos] at hp
        exact absurd hp (by simp)
      · simp only [if_neg hpos] at hp
        have hzero : (impactLoop levels quantity 0).2 = 0 := by
          rw [hrem]
          rw [hrem] at hpos
          rcases max_cases (quantity - totalDepth levels) 0 with
            ⟨he, _⟩ | ⟨he, _⟩ <;> rw [he] at hpos ⊢ <;> linarith
        obtain ⟨hl, hu⟩ := impactLoop_cost_bounds levels quantity 0
          L U (le_of_lt hq) hlv hbounds
        rw [hzero] at hl hu
        simp only [sub_zero, add_zero] at hl hu
        simp only [Option.some.injEq] at hp
        subst hp
        constructor
        · rw [le_div_iff₀ hq, mul_comm]
          linarith
        · rw [div_le_iff₀ hq, mul_comm]
          linarith

/-- C2 (amended): for every snapshot with nonnegative level quantities, every
positive quantity and every side, `calculate_impact_price` returns `none`
("insufficient liquidity") exactly when the quantity exceeds the total depth
of the consumed side (asks for a buy, bids for a sell); otherwise it returns
the volume-weighted average fill price of greedy consumption, and that price
lies inclusively between any lower and upper bound on the level prices of that
side — in particular, for a price-sorted book, between the best and worst
level prices inclusive. (The claim's "strictly between" fails, e.g. when the
whole fill executes at a single price level.) -/
theorem calculate_impact_price_spec (ob : OrderbookSnapshot) (quantity : ℚ)
    (side : Side) (hq : 0 < quantity)
    (hlv : ∀ lv ∈ consumedSide ob side, 0 ≤ lv.quantity) :
    (calculate_impact_price ob quantity side = none ↔
      totalDepth (consumedSide ob side) < quantity) ∧
    (∀ p L U, calculate_impact_price ob quantity side = some p →
      (∀ lv ∈ consumedSide ob side, L ≤ lv.price ∧ lv.price ≤ U) →
      L ≤ p ∧ p ≤ U) := by
  cases side
  · exact impact_core_spec ob.asks quantity hq hlv
  · exact impact_core_spec ob.bids quantity hq hlv

/-- Witness for `calculate_impact_price_spec`: a two-level ask book, buying 4
against total depth 5. -/
theorem calculate_impact_price_spec_witness :
    (calculate_impact_price twoLevelBook 4 Side.buy = none ↔
      totalDepth (consumedSide twoLevelBook Side.buy) < 4) ∧
    (∀ p L U, calculate_impact_price twoLevelBook 4 Side.buy = some p →
      (∀ lv ∈ consumedSide twoLevelBook Side.buy, L ≤ lv.price ∧ lv.price ≤ U) →
      L ≤ p ∧ p ≤ U) :=
  calculate_impact_price_spec twoLevelBook 4 Side.buy (by norm_num) (by decide)

/-- C2 counterexample: on a book whose ask side is the single level
`(price 100, qty 5)`, a buy of 3 fills entirely at price 100, which is the
best and the worst ask price at once — so the returned price is not strictly
between the best and worst level prices, refuting the claim as stated. -/
theorem impact_price_not_strictly_between :
    calculate_impact_price oneLevelBook 3 Side.buy = some 100 ∧
    (consumedSide oneLevelBook Side.buy).head?.map (·.price) = some 100 ∧
    (consumedSide oneLevelBook Side.buy).getLast?.map (·.price) = some 100 ∧
    ¬ ∃ p, calculate_impact_price oneLevelBook 3 Side.buy = some p ∧
      100 < p ∧ p < 100 := by
  refine ⟨?_, by decide, by decide, ?_⟩
  · norm_num [calculate_impact_price, oneLevelBook, impactLoop, min_def]
  · rintro ⟨p, _, h1, h2⟩
    exact absurd (h1.trans h2) (lt_irrefl 100)

/-! ## C4: per-level robustness of message parsing -/

/-- When every kept level coerces, the level loop returns exactly the
well-formed levels. -/
theorem parseLevels_of_coercible (side : List (List JVal))
    (h : coercibleSide side = true) :
    parseLevels side = some (wellFormedLevels side) := by
  induction side with
  | nil => rfl
  | cons ld rest ih =>
    rcases ld with _ | ⟨a, _ | ⟨b, tl⟩⟩
    · have hrest : coercibleSide rest = true := by
        simpa [coercibleSide, List.all_cons] using h
      show parseLevels rest = some (wellFormedLevels ([] :: rest))
      rw [ih hrest]
      simp [wellFormedLevels, List.filterMap_cons]
    · have hrest : coercibleSide rest = true := by
        simpa [coercibleSide, List.all_cons] using h
      show parseLevels rest = some (wellFormedLevels ([a] :: rest))
      rw [ih hrest]
      simp [wellFormedLevels, List.filterMap_cons]
    · simp only [coercibleSide, List.all_cons, Bool.and_eq_true,
        Option.isSome_iff_exists] at h
      obtain ⟨⟨⟨p, hp⟩, ⟨q, hq⟩⟩, hrest0⟩ := h
      have hrest : coercibleSide rest = true := hrest0
      simp only [parseLevels, wellFormedLevels, List.filterMap_cons, hp, hq]
      rw [← wellFormedLevels, ih hrest]
      rfl

/-- C4 (amended): for every decoded feed message with `bids`/`asks` arrays and
a parseable-or-missing timestamp, levels with fewer than two entries are
dropped while the snapshot is still produced, with bids re-sorted descending,
asks re-sorted ascending, and a missing timestamp defaulted to the ingestion
time — provided every kept level's price and quantity coerce to numeric. (A
level whose price or quantity fails numeric coercion aborts the whole message:
the claim's "a malformed level never causes the whole snapshot to be rejected"
does not hold of the code.) -/
theorem process_message_spec (msg : RawMessage) (now : ℚ)
    (hb : coercibleSide msg.bids = true) (ha : coercibleSide msg.asks = true)
    (hts : msg.timestamp ≠ TsField.invalid) :
    ∃ ob, process_message msg now = some ob ∧
      ob.bids = (wellFormedLevels msg.bids).insertionSort levelGE ∧
      ob.asks = (wellFormedLevels msg.asks).insertionSort levelLE ∧
      ob.bids.Sorted levelGE ∧ ob.asks.Sorted levelLE ∧
      (msg.timestamp = TsField.absent → ob.timestamp = now) ∧
      (∀ t, msg.timestamp = TsField.valid t → ob.timestamp = t) := by
  unfold process_message
  rw [parseLevels_of_coercible msg.bids hb, parseLevels_of_coercible msg.asks ha]
  rcases hcase : msg.timestamp with _ | t | _
  · refine ⟨_, rfl, rfl, rfl, List.sorted_insertionSort _ _,
      List.sorted_insertionSort _ _, fun _ => rfl, fun u hu => ?_⟩
    exact absurd hu (by simp)
  · refine ⟨_, rfl, rfl, rfl, List.sorted_insertionSort _ _,
      List.sorted_insertionSort _ _, fun habs => absurd habs (by simp),
      fun u hu => ?_⟩
    injection hu with h
  · exact absurd hcase hts

/-- Witness for `process_message_spec`: a message with an out-of-order ask
side, a short bid level, a numeric-string price and no timestamp. -/
theorem process_message_spec_witness :
    ∃ ob, process_message sortableMsg 7 = some ob ∧
      ob.bids = (wellFormedLevels sortableMsg.bids).insertionSort levelGE ∧
      ob.asks = (wellFormedLevels sortableMsg.asks).insertionSort levelLE ∧
      ob.bids.Sorted levelGE ∧ ob.asks.Sorted levelLE ∧
      (sortableMsg.timestamp = TsField.absent → ob.timestamp = 7) ∧
      (∀ t, sortableMsg.timestamp = TsField.valid t → ob.timestamp = t) :=
  process_message_spec sortableMsg 7 (by decide) (by decide) (by decide)

/-- C4 counterexample: a message whose bid side holds one well-formed level
and one level with a non-coercible price is rejected outright
(`process_message` returns `None`), instead of returning a snapshot with the
remaining well-formed levels as the claim states. -/
theorem malformed_level_rejects_snapshot :
    process_message mixedLevelsMsg 0 = none ∧
    wellFormedLevels mixedLevelsMsg.bids = [⟨100, 1⟩] ∧
    wellFormedLevels mixedLevelsMsg.asks = [⟨101, 1⟩] := by
  refine ⟨?_, by decide, by decide⟩
  rfl

/-! ## C7: volume-tier fee lookup -/

/-- On a key-sorted tier list, the break-at-first-exceeding scan returns the
rates of the last tier whose threshold is within the volume, or the fallback. -/
theorem tierLoop_eq_filter_getLast [LinearOrderedField α]
    (l : List (α × α × α)) (v : α) (acc : α × α)
    (hs : l.Sorted tierKeyLE) :
    tierLoop l v acc =
      (((l.filter (fun t => t.1 ≤ v)).getLast?.map (fun t => (t.2.1, t.2.2))).getD acc) := by
  induction l generalizing acc with
  | nil => simp [tierLoop]
  | cons t rest ih =>
    have hs' : rest.Sorted tierKeyLE := hs.tail
    by_cases hv : t.1 ≤ v
    · rw [List.filter_cons_of_pos (by simpa using hv)]
      simp only [tierLoop, if_pos hv]
      rw [ih (t.2.1, t.2.2) hs']
      cases hrest : rest.filter (fun u => u.1 ≤ v) with
      | nil => simp
      | cons r rs =>
        rw [List.getLast?_cons_cons]
        obtain ⟨z, hz⟩ : ∃ z, (r :: rs).getLast? = some z := by
          cases hlast : (r :: rs).getLast? with
          | none => exact absurd hlast (by simp)
          | some z => exact ⟨z, rfl⟩
        rw [hz]
        rfl
    · rw [List.filter_cons_of_neg (by simpa using hv)]
      simp only [tierLoop, if_neg hv]
      have hnone : rest.filter (fun u => u.1 ≤ v) = [] := by
        apply List.filter_eq_nil_iff.mpr
        intro u hu
        have := (List.sorted_cons.mp hs).1 u hu
        simp only [tierKeyLE] at this
        simp only [decide_eq_true_eq]
        push_neg at hv
        intro hc
        exact absurd (le_trans this hc) (not_le.mpr hv)
      rw [hnone]
      simp

/-- C7 (amended): for every volume argument that is neither `None` nor `0`,
the rate lookup returns the (maker, taker) rates of the tier with the largest
minimum-volume threshold not exceeding the volume, with the base rates when no
tier threshold qualifies; a `None` (or, by Python truthiness, `0`) argument is
replaced by the stored daily volume before the lookup. -/
theorem get_current_fee_rates_spec [LinearOrderedField α]
    (fc : FeeCalculator α) (v : α) (hv : v ≠ 0) :
    get_current_fee_rates fc (some v) = specTierRates fc.fee_structure v ∧
    get_current_fee_rates fc none = specTierRates fc.fee_structure fc.daily_volume := by
  have hsorted : (sortedTiers fc.fee_structure.volume_tiers).Sorted tierKeyLE := by
    unfold sortedTiers
    exact List.sorted_insertionSort tierKeyLE fc.fee_structure.volume_tiers
  constructor
  · simp only [get_current_fee_rates, specTierRates, if_neg hv]
    rw [tierLoop_eq_filter_getLast _ v _ hsorted]
    cases hlast : ((sortedTiers fc.fee_structure.volume_tiers).filter
        (fun t => t.1 ≤ v)).getLast? with
    | none => simp [hlast]
    | some t => simp [hlast]
  · simp only [get_current_fee_rates, specTierRates]
    rw [tierLoop_eq_filter_getLast _ fc.daily_volume _ hsorted]
    cases hlast : ((sortedTiers fc.fee_structure.volume_tiers).filter
        (fun t => t.1 ≤ fc.daily_volume)).getLast? with
    | none => simp [hlast]
    | some t => simp [hlast]

/-- Witness for `get_current_fee_rates_spec` at volume 7,000,000 on the OKX
tier table: the $5M tier applies. -/
theorem get_current_fee_rates_spec_witness :
    (get_current_fee_rates millionVolumeCalc (some 7000000) =
      specTierRates millionVolumeCalc.fee_structure 7000000 ∧
     get_current_fee_rates millionVolumeCalc none =
      specTierRates millionVolumeCalc.fee_structure millionVolumeCalc.daily_volume) ∧
    get_current_fee_rates millionVolumeCalc (some 7000000) = (0.0001, 0.0004) :=
  ⟨get_current_fee_rates_spec millionVolumeCalc 7000000 (by norm_num), by
    norm_num [get_current_fee_rates, millionVolumeCalc, okxTiersQ, sortedTiers,
      tierLoop, tierKeyLE, List.insertionSort, List.orderedInsert]⟩

/-- C7 counterexample: with stored daily volume 1,000,000, an explicit volume
argument of `0` is falsy in Python, so the lookup silently uses the daily
volume and returns the $1M-tier rates instead of the rates of the tier whose
threshold does not exceed 0 — refuting the claim for the volume argument 0. -/
theorem fee_rates_zero_volume_argument_fails :
    get_current_fee_rates millionVolumeCalc (some 0) = (0.00015, 0.00045) ∧
    specTierRates millionVolumeCalc.fee_structure 0 = (0.0002, 0.0005) ∧
    get_current_fee_rates millionVolumeCalc (some 0) ≠
      specTierRates millionVolumeCalc.fee_structure 0 := by
  refine ⟨?_, ?_, ?_⟩ <;>
    norm_num [get_current_fee_rates, specTierRates, millionVolumeCalc, okxTiersQ,
      sortedTiers, tierLoop, tierKeyLE, List.insertionSort, List.orderedInsert,
      List.filter, List.getLast?]

/-! ## C9: rolling volatility -/

theorem length_logReturns (l : List ℝ) : (logReturns l).length = l.length - 1 := by
  simp [logReturns]

/-- C9 (amended): for every window size of at least 2, `get_volatility`
returns the absent result exactly when the history holds fewer than `window`
entries, and otherwise the population standard deviation (`np.std`, `ddof=0`)
of the log-returns over exactly the most recent `window` mid prices. (The
claim's "sample standard deviation" — Bessel-corrected, `ddof=1` — is not what
the code computes.) -/
theorem get_volatility_spec (a : OrderbookAnalyzer) (window : ℕ)
    (hw : 2 ≤ window) :
    (a.get_volatility window = none ↔ a.price_history.length < window) ∧
    (window ≤ a.price_history.length →
      a.get_volatility window =
        some (npStd (logReturns (ratCastList (lastN a.price_history window))))) := by
  by_cases hlen : a.price_history.length < window
  · constructor
    · simp [OrderbookAnalyzer.get_volatility, hlen]
    · intro hge
      omega
  · push_neg at hlen
    have hslice : pySliceLast a.price_history window = lastN a.price_history window := by
      unfold pySliceLast
      rw [if_neg (by omega)]
    have hlenret : (logReturns (ratCastList (lastN a.price_history window))).length =
        window - 1 := by
      rw [length_logReturns, ratCastList, List.length_map, length_lastN]
      omega
    constructor
    · constructor
      · intro hnone
        simp only [OrderbookAnalyzer.get_volatility, if_neg (by omega : ¬ a.price_history.length < window),
          hslice] at hnone
        rw [if_pos (by rw [hlenret]; omega)] at hnone
        exact absurd hnone (by simp)
      · intro hlt
        omega
    · intro _
      simp only [OrderbookAnalyzer.get_volatility,
        if_neg (by omega : ¬ a.price_history.length < window), hslice]
      rw [if_pos (by rw [hlenret]; omega)]

/-- Witness for `get_volatility_spec` at window 2 over the history
`[1, 2, 1]`. -/
theorem get_volatility_spec_witness :
    (OrderbookAnalyzer.get_volatility threePriceAnalyzer 2 = none ↔
      threePriceAnalyzer.price_history.length < 2) ∧
    (2 ≤ threePriceAnalyzer.price_history.length →
      OrderbookAnalyzer.get_volatility threePriceAnalyzer 2 =
        some (npStd (logReturns (ratCastList (lastN threePriceAnalyzer.price_history 2))))) :=
  get_volatility_spec threePriceAnalyzer 2 (by norm_num)

theorem npStd_pair_opp (x : ℝ) (hx : 0 ≤ x) : npStd [x, -x] = x := by
  have hm : npMean [x, -x] = 0 := by
    simp [npMean]
  unfold npStd
  rw [hm]
  have h2 : ((x - 0) ^ 2 + ((-x - 0) ^ 2 + 0)) / ([x, -x].length : ℝ) = x ^ 2 := by
    have hl : ([x, -x].length : ℝ) = 2 := by norm_num
    rw [hl]
    ring
  simp only [List.map_cons, List.map_nil, List.sum_cons, List.sum_nil]
  rw [h2]
  exact Real.sqrt_sq hx

theorem sampleStd_pair_opp (x : ℝ) (hx : 0 ≤ x) :
    sampleStd [x, -x] = Real.sqrt 2 * x := by
  have hm : npMean [x, -x] = 0 := by
    simp [npMean]
  unfold sampleStd
  rw [hm]
  have h2 : ((x - 0) ^ 2 + ((-x - 0) ^ 2 + 0)) / (([x, -x].length : ℝ) - 1) =
      2 * x ^ 2 := by
    have hl : ([x, -x].length : ℝ) = 2 := by norm_num
    rw [hl]
    ring
  simp only [List.map_cons, List.map_nil, List.sum_cons, List.sum_nil]
  rw [h2, Real.sqrt_mul (by norm_num : (0:ℝ) ≤ 2), Real.sqrt_sq hx]

/-- C9 counterexample: over the mid-price history `[1, 2, 1]` with window 3,
the log-returns are `[log 2, -log 2]`; the code returns their population
standard deviation `log 2`, while the sample standard deviation of the claim
is `√2 · log 2` — the two differ, refuting the claim as stated. -/
theorem get_volatility_not_sample_std :
    OrderbookAnalyzer.get_volatility threePriceAnalyzer 3 ≠
      specVolatility threePriceAnalyzer 3 := by
  have hlog2 : (0:ℝ) < Real.log 2 := Real.log_pos (by norm_num)
  have hprices : ratCastList (lastN threePriceAnalyzer.price_history 3) =
      [1, 2, 1] := by
    norm_num [threePriceAnalyzer, lastN, ratCastList]
  have hret : logReturns [(1:ℝ), 2, 1] = [Real.log 2, -Real.log 2] := by
    simp [logReturns, List.zip]
  have hsl : pySliceLast threePriceAnalyzer.price_history 3 = [(1:ℚ), 2, 1] := by
    norm_num [threePriceAnalyzer, pySliceLast, lastN]
  have hcast : ratCastList [(1:ℚ), 2, 1] = [(1:ℝ), 2, 1] := by
    norm_num [ratCastList]
  have h1 : OrderbookAnalyzer.get_volatility threePriceAnalyzer 3 =
      some (Real.log 2) := by
    simp only [OrderbookAnalyzer.get_volatility, hsl, hcast, hret]
    norm_num [threePriceAnalyzer, npStd_pair_opp _ (le_of_lt hlog2)]
  have hln : lastN threePriceAnalyzer.price_history 3 = [(1:ℚ), 2, 1] := by
    norm_num [threePriceAnalyzer, lastN]
  have h2 : specVolatility threePriceAnalyzer 3 =
      some (Real.sqrt 2 * Real.log 2) := by
    simp only [specVolatility, hln, hcast, hret]
    norm_num [threePriceAnalyzer, sampleStd_pair_opp _ (le_of_lt hlog2)]
  intro heq
  rw [h1, h2] at heq
  have hx : Real.log 2 = Real.sqrt 2 * Real.log 2 := by
    injection heq
  have hs : Real.sqrt 2 = 1 := by
    have := mul_right_cancel₀ (ne_of_gt hlog2)
      (by rw [one_mul]; exact hx : 1 * Real.log 2 = Real.sqrt 2 * Real.log 2)
    exact this.symm
  have h21 : (2:ℝ) = 1 := by
    rw [← Real.sq_sqrt (by norm_num : (0:ℝ) ≤ 2), hs]
    norm_num
  linarith

/-! ## C3: Almgren-Chriss holdings trajectory -/

/-- C3 (amended): for every `AlmgrenChrissParams` passing construction
validation with strictly positive permanent impact (`eta > 0`; `eta = 0`
passes validation but makes the strategy computation divide by zero), every
initial position and every `n_intervals ≥ 1`, `calculate_optimal_strategy`
succeeds and returns a holdings trajectory of `n_intervals + 1` points on the
equally spaced grid `tᵢ = i·τ/n` over `[0, τ]`, with holdings
`initial_position` at time 0 and `0` at time `τ`. -/
theorem calculate_optimal_strategy_spec (p : AlmgrenChrissParams) (X : ℝ)
    (n : ℕ) (hv : p.Valid) (heta : 0 < p.eta) (hn : 1 ≤ n) :
    ∃ s, calculate_optimal_strategy p X n = some s ∧
      s.holdings.length = n + 1 ∧
      s.times = (List.range (n + 1)).map (fun (i : ℕ) => (i : ℝ) * p.tau / (n : ℝ)) ∧
      s.holdings.head? = some X ∧
      s.holdings.getLast? = some 0 := by
  obtain ⟨hsig, hgam, _, _, htau⟩ := hv
  have hkpos : 0 < Real.sqrt (p.gamma * p.sigma ^ 2 / p.eta) :=
    Real.sqrt_pos.mpr (by positivity)
  have hsinh : 0 < Real.sinh (Real.sqrt (p.gamma * p.sigma ^ 2 / p.eta) * p.tau) :=
    Real.sinh_pos_iff.mpr (by positivity)
  have hnR : ((n : ℝ)) ≠ 0 := Nat.cast_ne_zero.mpr (by omega)
  simp only [calculate_optimal_strategy, calculate_kappa,
    if_neg (ne_of_gt heta), if_neg (by omega : ¬ n = 0)]
  refine ⟨_, rfl, ?_, rfl, ?_, ?_⟩
  · simp
  · rw [List.head?_map, List.head?_map, List.range_succ_eq_map]
    simp only [List.head?_cons, Option.map_some']
    have ht0 : ((0 : ℕ) : ℝ) * p.tau / (n : ℝ) = 0 := by
      simp
    rw [ht0]
    unfold acHolding
    rw [if_pos (by linarith [sub_zero p.tau ▸ htau] : 0 < p.tau - 0)]
    rw [sub_zero, mul_div_assoc, div_self (ne_of_gt hsinh), mul_one]
  · rw [List.getLast?_map, List.getLast?_map, List.range_succ,
      List.getLast?_concat]
    simp only [Option.map_some']
    have htn : ((n : ℕ) : ℝ) * p.tau / (n : ℝ) = p.tau := by
      field_simp
    rw [htn]
    unfold acHolding
    rw [if_neg (by simp : ¬ (0 : ℝ) < p.tau - p.tau)]

/-- Witness for `calculate_optimal_strategy_spec` at
`sigma = gamma = eta = tau = 1`, `epsilon = 0`, position 5, two intervals. -/
theorem calculate_optimal_strategy_spec_witness :
    ∃ s, calculate_optimal_strategy ⟨1, 1, 1, 0, 1⟩ 5 2 = some s ∧
      s.holdings.length = 2 + 1 ∧
      s.times = (List.range (2 + 1)).map
        (fun (i : ℕ) => (i : ℝ) * (⟨1, 1, 1, 0, 1⟩ : AlmgrenChrissParams).tau / ((2 : ℕ) : ℝ)) ∧
      s.holdings.head? = some 5 ∧
      s.holdings.getLast? = some 0 :=
  calculate_optimal_strategy_spec ⟨1, 1, 1, 0, 1⟩ 5 2
    ⟨by norm_num, by norm_num, by norm_num, le_refl 0, by norm_num⟩
    (by norm_num) (by norm_num)

/-- C3 counterexample: the parameters `sigma = gamma = 1, eta = 0, epsilon =
0, tau = 1` pass construction validation (`eta ≥ 0` is allowed), yet
`calculate_optimal_strategy` fails — `_calculate_kappa` divides
`gamma * sigma**2` by `eta = 0` — instead of returning the claimed
trajectory. -/
theorem eta_zero_passes_validation_but_strategy_fails :
    AlmgrenChrissParams.Valid ⟨1, 1, 0, 0, 1⟩ ∧
    calculate_optimal_strategy ⟨1, 1, 0, 0, 1⟩ 100 10 = none := by
  constructor
  · exact ⟨by norm_num, by norm_num, le_refl 0, le_refl 0, by norm_num⟩
  · simp [calculate_optimal_strategy, calculate_kappa]

/-! ## C6: zero adaptation rate preserves parameters -/

theorem adapt_parameters_zero_rate (opt : ACOptimizer)
    (m : AdaptiveAlmgrenChriss) (h : m.adaptation_rate = 0) :
    (adapt_parameters opt m).current_params = m.current_params := by
  unfold adapt_parameters
  by_cases hlen : m.recent_trades.length < 10
  · rw [if_pos hlen]
  · rw [if_neg hlen]
    cases opt m.recent_trades with
    | none => rfl
    | some newp =>
      show ({ m.current_params with
          gamma := (1 - m.adaptation_rate) * m.current_params.gamma +
            m.adaptation_rate * newp.gamma
          eta := (1 - m.adaptation_rate) * m.current_params.eta +
            m.adaptation_rate * newp.eta
          epsilon := (1 - m.adaptation_rate) * m.current_params.epsilon +
            m.adaptation_rate * newp.epsilon } : AlmgrenChrissParams) =
        m.current_params
      rw [h]
      cases m.current_params
      simp

theorem update_with_trade_zero_rate (opt : ACOptimizer)
    (m : AdaptiveAlmgrenChriss) (h : m.adaptation_rate = 0) (trade : ACTrade) :
    (update_with_trade opt m trade).current_params = m.current_params ∧
    (update_with_trade opt m trade).adaptation_rate = 0 := by
  unfold update_with_trade
  set trades := (if 100 < (m.recent_trades ++ [trade]).length then
    lastN (m.recent_trades ++ [trade]) 100 else m.recent_trades ++ [trade]) with htr
  by_cases hmod : trades.length % 10 = 0
  · rw [if_pos hmod]
    constructor
    · exact adapt_parameters_zero_rate opt _ h
    · show (adapt_parameters opt { m with recent_trades := trades }).adaptation_rate = 0
      unfold adapt_parameters
      by_cases hlen : trades.length < 10
      · rw [if_pos hlen]; exact h
      · rw [if_neg hlen]
        cases opt trades with
        | none => exact h
        | some newp => exact h
  · rw [if_neg hmod]
    exact ⟨rfl, h⟩

/-- C6: for an adaptive Almgren-Chriss model with `adaptation_rate = 0`, after
any number of `update_with_trade` calls (including those triggering the
10-outcome re-optimisation cycle, and for any outcome of the re-optimiser),
the current parameters equal the initial parameters. -/
theorem zero_rate_params_invariant (opt : ACOptimizer)
    (m : AdaptiveAlmgrenChriss) (h : m.adaptation_rate = 0)
    (trades : List ACTrade) :
    (trades.foldl (update_with_trade opt) m).current_params =
      m.current_params := by
  induction trades generalizing m with
  | nil => rfl
  | cons t rest ih =>
    obtain ⟨hparams, hrate⟩ := update_with_trade_zero_rate opt m h t
    simpa [hparams] using ih (update_with_trade opt m t) hrate

/-- Witness for `zero_rate_params_invariant`: twelve identical trades through
an adaptive model with zero rate and an optimiser that always returns fresh
parameters. -/
theorem zero_rate_params_invariant_witness :
    ((List.replicate 12 (⟨1, 1, 1, 1, 1⟩ : ACTrade)).foldl
      (update_with_trade (fun _ => some ⟨2, 3, 4, 5, 6⟩))
      (AdaptiveAlmgrenChriss.init ⟨1, 1, 1, 1, 1⟩ 0)).current_params =
    (AdaptiveAlmgrenChriss.init ⟨1, 1, 1, 1, 1⟩ 0).current_params :=
  zero_rate_params_invariant (fun _ => some ⟨2, 3, 4, 5, 6⟩)
    (AdaptiveAlmgrenChriss.init ⟨1, 1, 1, 1, 1⟩ 0) rfl
    (List.replicate 12 ⟨1, 1, 1, 1, 1⟩)

/-! ## C8: training-sample thresholds and identical-outcome training -/

theorem dot_nil_left (x : List ℝ) : dot [] x = 0 := by simp [dot]

theorem dot_self_nonneg (w : List ℝ) : 0 ≤ dot w w := by
  induction w with
  | nil => simp [dot]
  | cons a w ih =>
    simp only [dot, List.zipWith_cons_cons, List.sum_cons] at *
    nlinarith

theorem dot_eq_zero_of_self (w : List ℝ) (h : dot w w = 0) :
    ∀ x, dot w x = 0 := by
  induction w with
  | nil => intro x; simp [dot]
  | cons a w ih =>
    simp only [dot, List.zipWith_cons_cons, List.sum_cons] at h
    have ha2 : 0 ≤ a * a := mul_self_nonneg a
    have hww := dot_self_nonneg w
    simp only [dot] at hww
    have ha : a = 0 := by nlinarith
    have hw : (List.zipWith (· * ·) w w).sum = 0 := by nlinarith
    intro x
    cases x with
    | nil => simp [dot]
    | cons z zs =>
      simp only [dot, List.zipWith_cons_cons, List.sum_cons, ha, zero_mul, zero_add]
      exact ih hw zs

theorem lstsqLoss_nonneg (X : List (List ℝ)) (y : List ℝ) (w : List ℝ) (b : ℝ) :
    0 ≤ lstsqLoss X y w b := by
  induction X generalizing y with
  | nil => simp [lstsqLoss]
  | cons x X ih =>
    cases y with
    | nil => simp [lstsqLoss]
    | cons yi y =>
      simp only [lstsqLoss, List.zipWith_cons_cons, List.sum_cons]
      have h1 : 0 ≤ (dot w x + b - yi) ^ 2 := sq_nonneg _
      have h2 := ih y
      simp only [lstsqLoss] at h2
      linarith

theorem lstsqLoss_replicate_zero (X : List (List ℝ)) (n : ℕ) (c : ℝ) :
    lstsqLoss X (List.replicate n c) [] c = 0 := by
  induction X generalizing n with
  | nil => simp [lstsqLoss]
  | cons x X ih =>
    cases n with
    | zero => simp [lstsqLoss]
    | succ m =>
      have h := ih m
      simp only [lstsqLoss, dot_nil_left] at h
      simp only [List.replicate_succ, lstsqLoss, List.zipWith_cons_cons,
        List.sum_cons, dot_nil_left]
      rw [h]
      ring

/-- A constant model is a minimum-norm least-squares fit for constant
targets. -/
theorem isLinRegFit_const (X : List (List ℝ)) (n : ℕ) (c : ℝ) :
    IsLinRegFit X (List.replicate n c) [] c := by
  constructor
  · intro w' b'
    rw [lstsqLoss_replicate_zero]
    exact lstsqLoss_nonneg X _ w' b'
  · intro w' b' _
    rw [show dot [] [] = 0 from by simp [dot]]
    exact dot_self_nonneg w'

/-- Any minimum-norm least-squares fit of constant targets over at least one
training row is the constant model. -/
theorem linRegFit_replicate (X : List (List ℝ)) (n : ℕ) (c : ℝ)
    (w : List ℝ) (b : ℝ) (hn : 0 < n) (hX : n ≤ X.length)
    (h : IsLinRegFit X (List.replicate n c) w b) :
    (∀ x, dot w x = 0) ∧ b = c := by
  have h0 : lstsqLoss X (List.replicate n c) w b = 0 := by
    have hle := h.1 [] c
    rw [lstsqLoss_replicate_zero] at hle
    exact le_antisymm hle (lstsqLoss_nonneg X _ w b)
  have hww : dot w w = 0 := by
    have := h.2 [] c (by rw [lstsqLoss_replicate_zero, h0])
    rw [show dot ([] : List ℝ) [] = 0 from by simp [dot]] at this
    exact le_antisymm this (dot_self_nonneg w)
  have hdot := dot_eq_zero_of_self w hww
  refine ⟨hdot, ?_⟩
  cases X with
  | nil => simp at hX; omega
  | cons x X2 =>
    cases n with
    | zero => omega
    | succ m =>
      simp only [List.replicate_succ, lstsqLoss, List.zipWith_cons_cons,
        List.sum_cons] at h0
      have hfirst : (dot w x + b - c) ^ 2 = 0 := by
        have hrest : 0 ≤ lstsqLoss X2 (List.replicate m c) w b :=
          lstsqLoss_nonneg X2 _ w b
        simp only [lstsqLoss] at hrest
        nlinarith [sq_nonneg (dot w x + b - c)]
      rw [hdot x, zero_add] at hfirst
      have := pow_eq_zero_iff (n := 2) (by norm_num) |>.mp hfirst
      linarith [this]

theorem valsAt_replicate {α : Type} (idx : List ℕ) (n : ℕ) (c d : α)
    (h : ∀ i ∈ idx, i < n) :
    valsAt (List.replicate n c) d idx = List.replicate idx.length c := by
  induction idx with
  | nil => rfl
  | cons i idx ih =>
    have hi : i < n := h i (by simp)
    simp only [valsAt, List.map_cons, List.length_cons, List.replicate_succ]
    have hget : (List.replicate n c).getD i d = c := by
      rw [List.getD_eq_getElem _ _ (by simpa using hi), List.getElem_replicate]
    rw [hget]
    have := ih (fun j hj => h j (by simp [hj]))
    simp only [valsAt] at this
    rw [this]

/-- `np.unique` of identical labels is a single class (or empty). -/
theorem sortedClasses_replicate (n : ℕ) (v : ℕ) :
    sortedClasses (List.replicate n v) = if n = 0 then [] else [v] := by
  unfold sortedClasses
  by_cases hn : n = 0
  · subst hn; rfl
  · rw [List.replicate_dedup hn, if_neg hn]
    rfl

/-- The maker/taker trainer on ten identical outcomes reaches the
single-class `predict_proba[:, 1]` read and fails with its index error. -/
theorem train_model_single_class (env : MTEnv) (p : MakerTakerPredictor)
    (fl : List MakerTakerFeatures) (ot : OrderType)
    (hlen : fl.length = 10)
    (hidx : ∀ i ∈ (env.split 10).1, i < 10) :
    train_model env p fl (List.replicate 10 ot) =
      .error .class_index_out_of_range := by
  unfold train_model
  rw [if_neg (by simp [hlen]), if_neg (by omega)]
  have hy : (List.replicate 10 ot).map
      (fun t => if t = OrderType.maker then 1 else 0) =
      List.replicate 10 (if ot = OrderType.maker then 1 else 0) := by
    rw [List.map_replicate]
  rw [hlen, hy]
  simp only [sortedClasses_replicate, valsAt_replicate _ 10 _ 0 hidx,
    List.all_cons, List.all_nil, List.count_replicate_self]
  norm_num
  intro hgt
  exfalso
  rcases em ((env.split 10).1 = []) with he | he
  · rw [if_pos he] at hgt
    simp at hgt
  · rw [if_neg he] at hgt
    simp at hgt

/-- The slippage trainer on ten identical outcomes succeeds and the fitted
model predicts that outcome on every input. -/
theorem train_models_const_outcome (envS : SlipEnv) (est : SlippageEstimator)
    (fl : List SlippageFeatures) (c : ℝ) (hlen : fl.length = 10)
    (hsplit : ValidSplit envS.split 10)
    (hfit : ∀ X, IsLinRegFit X (valsAt (List.replicate 10 c) 0 (envS.split 10).1)
      (envS.linFit X (valsAt (List.replicate 10 c) 0 (envS.split 10).1)).1
      (envS.linFit X (valsAt (List.replicate 10 c) 0 (envS.split 10).1)).2) :
    ∃ est2, train_models envS est fl (List.replicate 10 c) = .ok est2 ∧
      est2.is_trained = true ∧
      ∀ f, (predict_slippage est2 f).map (·.expected_slippage) = some c := by
  obtain ⟨htr, _, htrmem, _⟩ := hsplit
  have hytr : valsAt (List.replicate 10 c) 0 (envS.split 10).1 =
      List.replicate 8 c := by
    rw [valsAt_replicate _ 10 _ 0 htrmem, htr]
  refine ⟨slipFitState envS est fl (List.replicate 10 c), ?_, rfl, ?_⟩
  · unfold train_models
    rw [if_neg (by simp [hlen]), if_neg (by omega)]
  · intro f
    have hlm : (slipFitState envS est fl (List.replicate 10 c)).linear_model =
        envS.linFit ((rowsAt (fl.map slip_features_to_array)
          (envS.split 10).1).map (scale_transform (fitScaler
          (rowsAt (fl.map slip_features_to_array) (envS.split 10).1))))
          (valsAt (List.replicate 10 c) 0 (envS.split 10).1) := by
      simp only [slipFitState, hlen]
    have hfit2 := hfit ((rowsAt (fl.map slip_features_to_array)
      (envS.split 10).1).map (scale_transform (fitScaler
      (rowsAt (fl.map slip_features_to_array) (envS.split 10).1))))
    rw [hytr] at hfit2
    have hXlen : 8 ≤ ((rowsAt (fl.map slip_features_to_array)
        (envS.split 10).1).map (scale_transform (fitScaler
        (rowsAt (fl.map slip_features_to_array) (envS.split 10).1)))).length := by
      simp only [List.length_map, rowsAt, htr]
      omega
    obtain ⟨hdot, hb⟩ := linRegFit_replicate _ 8 c _ _ (by norm_num) hXlen hfit2
    unfold predict_slippage
    rw [if_neg (by simp [slipFitState])]
    simp only [Option.map_some', Option.some.injEq]
    rw [hlm, hytr, hdot, hb, zero_add]

/-- C8 (amended): training either model on fewer than 10 paired samples (in
particular 9) fails with the typed insufficient-samples error, leaving the
model untrained; training the slippage estimator on 10 samples that all carry
the identical outcome succeeds, and its prediction afterwards returns exactly
that outcome; but training the maker/taker predictor on 10 identical-outcome
samples does not succeed — the single-class `predict_proba[:, 1]` read raises
an index error before the model is marked trained. -/
theorem training_sample_rules (envS : SlipEnv) (envM : MTEnv)
    (est : SlippageEstimator) (p : MakerTakerPredictor) :
    (∀ fl outs, fl.length = outs.length → fl.length < 10 →
      train_models envS est fl outs = .error .insufficient_samples) ∧
    (∀ fl ots, fl.length = ots.length → fl.length < 10 →
      train_model envM p fl ots = .error .insufficient_samples) ∧
    (∀ fl (c : ℝ), fl.length = 10 → ValidSplit envS.split 10 →
      (∀ X, IsLinRegFit X (valsAt (List.replicate 10 c) 0 (envS.split 10).1)
        (envS.linFit X (valsAt (List.replicate 10 c) 0 (envS.split 10).1)).1
        (envS.linFit X (valsAt (List.replicate 10 c) 0 (envS.split 10).1)).2) →
      ∃ est2, train_models envS est fl (List.replicate 10 c) = .ok est2 ∧
        est2.is_trained = true ∧
        ∀ f, (predict_slippage est2 f).map (·.expected_slippage) = some c) ∧
    (∀ fl ot, fl.length = 10 → (∀ i ∈ (envM.split 10).1, i < 10) →
      train_model envM p fl (List.replicate 10 ot) =
        .error .class_index_out_of_range) := by
  refine ⟨?_, ?_, ?_, ?_⟩
  · intro fl outs hlen hlt
    unfold train_models
    rw [if_neg (by omega), if_pos hlt]
  · intro fl ots hlen hlt
    unfold train_model
    rw [if_neg (by omega), if_pos hlt]
  · intro fl c hlen hsplit hfit
    exact train_models_const_outcome envS est fl c hlen hsplit hfit
  · intro fl ot hlen hidx
    exact train_model_single_class envM p fl ot hlen hidx

/-- Witness for `training_sample_rules`: concrete environments with the
deterministic split and constant fits, nine- and ten-sample training sets. -/
theorem training_sample_rules_witness :
    train_models constSlipEnv SlippageEstimator.init
      (List.replicate 9 zeroSlipFeatures) (List.replicate 9 (0:ℝ)) =
      .error .insufficient_samples ∧
    train_model constMTEnv MakerTakerPredictor.init
      (List.replicate 9 zeroMTFeatures) (List.replicate 9 OrderType.taker) =
      .error .insufficient_samples ∧
    (∃ est2, train_models constSlipEnv SlippageEstimator.init
        (List.replicate 10 zeroSlipFeatures) (List.replicate 10 (3:ℝ)) = .ok est2 ∧
      est2.is_trained = true ∧
      ∀ f, (predict_slippage est2 f).map (·.expected_slippage) = some 3) ∧
    train_model constMTEnv MakerTakerPredictor.init
      (List.replicate 10 zeroMTFeatures) (List.replicate 10 OrderType.maker) =
      .error .class_index_out_of_range := by
  obtain ⟨h1, h2, h3, h4⟩ := training_sample_rules constSlipEnv constMTEnv
    SlippageEstimator.init MakerTakerPredictor.init
  refine ⟨h1 _ _ (by simp) (by simp), h2 _ _ (by simp) (by simp), ?_,
    h4 _ OrderType.maker (by simp) (by decide)⟩
  refine h3 _ 3 (by simp) (by unfold ValidSplit; decide) ?_
  intro X
  have hlen8 : (constSlipEnv.split 10).1.length = 8 := by decide
  have hy : valsAt (List.replicate 10 (3:ℝ)) 0 (constSlipEnv.split 10).1 =
      List.replicate 8 3 := by
    rw [valsAt_replicate _ 10 _ 0 (by decide), hlen8]
  rw [hy]
  exact isLinRegFit_const X 8 3

/-- C8 counterexample: training the maker/taker predictor on ten samples that
all carry the identical outcome (all taker) does not succeed — it fails with
the single-class probability-column index error — refuting the claim that
10-identical-outcome training succeeds for both models. -/
theorem identical_outcome_mt_training_fails :
    train_model constMTEnv MakerTakerPredictor.init
      (List.replicate 10 zeroMTFeatures) (List.replicate 10 OrderType.taker) =
      .error .class_index_out_of_range ∧
    ∀ q, train_model constMTEnv MakerTakerPredictor.init
      (List.replicate 10 zeroMTFeatures) (List.replicate 10 OrderType.taker) ≠
      .ok q := by
  have h := train_model_single_class constMTEnv MakerTakerPredictor.init
    (List.replicate 10 zeroMTFeatures) OrderType.taker (by simp) (by decide)
  refine ⟨h, fun q hq => ?_⟩
  rw [h] at hq
  exact absurd hq (by simp)

/-! ## C1 and C5: the estimate path of the orchestrator -/

theorem calculate_optimal_strategy_isSome (p : AlmgrenChrissParams) (X : ℝ)
    (n : ℕ) (heta : p.eta ≠ 0) (hn : n ≠ 0) :
    ∃ s, calculate_optimal_strategy p X n = some s := by
  simp only [calculate_optimal_strategy, calculate_kappa, if_neg heta, if_neg hn]
  exact ⟨_, rfl⟩

/-- With an untrained maker/taker model the integrated cost uses the default
maker probability 0.5 and satisfies the additive total and bps identities. -/
theorem calculate_total_cost_untrained (fc : FeeCalculator ℝ)
    (mtp : MakerTakerPredictor) (ob : SimOrderbook)
    (trade_size order_price slip imp : ℝ) (hist : HistoricalData)
    (hmt : mtp.is_trained = false) (hamt : trade_size * order_price ≠ 0) :
    ∃ info, calculate_total_cost fc mtp ob trade_size order_price slip imp hist =
      some info ∧
      info.maker_probability = 0.5 ∧
      info.slippage_cost = slip ∧
      info.market_impact_cost = imp ∧
      info.total_cost = info.exchange_fee + slip + imp ∧
      info.cost_bps = info.total_cost / (trade_size * order_price) * 10000 := by
  unfold calculate_total_cost
  rw [hmt]
  rw [if_neg (by simp)]
  unfold calculate_expected_fee
  simp only []
  rw [if_neg hamt]
  exact ⟨_, rfl, rfl, rfl, rfl, rfl, rfl⟩

/-- Core characterisation of `estimate_trade_cost` with both learned models
untrained: the fallback slippage is half the bid-ask spread, the maker
probability is the 0.5 default, and the totals satisfy the claimed
identities. -/
theorem estimate_untrained_fields (st : TradeSimulator)
    (params : TradeParameters) (now : ℝ) (ob : SimOrderbook)
    (hob : st.current_orderbook = some ob)
    (hasks : ob.asks ≠ []) (hbids : ob.bids ≠ [])
    (hslip : st.slippage_estimator.is_trained = false)
    (hmt : st.maker_taker_predictor.is_trained = false)
    (hprice : 0 < resolved_execution_price ob params)
    (hsize : 0 < params.trade_size)
    (heta : 0 < st.ac_params.eta)
    (hth : 10 ≤ params.time_horizon) :
    ∃ e, estimate_trade_cost st params now = some e ∧
      e.slippage_cost = (headPrice ob.asks - headPrice ob.bids) / 2 ∧
      e.maker_probability = 0.5 ∧
      e.total_cost = e.exchange_fee + e.slippage_cost + e.market_impact ∧
      e.cost_bps = e.total_cost /
        (params.trade_size * resolved_execution_price ob params) * 10000 := by
  have hn0 : (⌊params.time_horizon / 10⌋).toNat ≠ 0 := by
    have h1 : (1:ℝ) ≤ params.time_horizon / 10 := by linarith [hth]
    have h2 : (1:ℤ) ≤ ⌊params.time_horizon / 10⌋ := Int.le_floor.mpr (by exact_mod_cast h1)
    omega
  obtain ⟨strat, hstrat⟩ := calculate_optimal_strategy_isSome st.ac_params
    params.trade_size _ (ne_of_gt heta) hn0
  have hamt : params.trade_size * resolved_execution_price ob params ≠ 0 :=
    ne_of_gt (mul_pos hsize hprice)
  obtain ⟨info, hinfo, hip, his, hii, hit, hib⟩ := calculate_total_cost_untrained
    st.fee_calculator st.maker_taker_predictor ob params.trade_size
    (resolved_execution_price ob params)
    ((if ob.asks ≠ [] ∧ ob.bids ≠ [] then headPrice ob.asks - headPrice ob.bids
      else 0) * 0.5)
    (calculate_market_impact st.ac_params params.trade_size 0 strat).total_impact
    (get_historical_data st now) hmt hamt
  unfold estimate_trade_cost
  rw [hob]
  simp only [if_neg (not_le.mpr hprice), hslip, Bool.false_eq_true, if_false,
    hstrat, hinfo]
  refine ⟨_, rfl, ?_, ?_, ?_, ?_⟩
  · show (if ob.asks ≠ [] ∧ ob.bids ≠ [] then
      headPrice ob.asks - headPrice ob.bids else 0) * 0.5 =
      (headPrice ob.asks - headPrice ob.bids) / 2
    rw [if_pos (And.intro hasks hbids)]
    ring
  · exact hip
  · exact hit
  · exact hib

/-- C1 (amended): for every estimate call with a current orderbook snapshot
present (both sides non-empty), a positive resolved execution price, a
positive trade size, horizon at least 10 s and positive permanent impact: if
the slippage model is untrained the slippage component equals half the
current bid-ask spread; if the maker/taker model is untrained the maker
probability used is 0.5 — uniformly, also for market orders (the spec's §8
figure of 0.1 does not match the code); and the returned `total_cost` equals
`exchange_fee + slippage_cost + market_impact` with
`cost_bps = total_cost / (trade_size * execution_price) * 10000`. -/
theorem estimate_trade_cost_untrained_spec (st : TradeSimulator)
    (params : TradeParameters) (now : ℝ) (ob : SimOrderbook)
    (hob : st.current_orderbook = some ob)
    (hasks : ob.asks ≠ []) (hbids : ob.bids ≠ [])
    (hslip : st.slippage_estimator.is_trained = false)
    (hmt : st.maker_taker_predictor.is_trained = false)
    (hprice : 0 < resolved_execution_price ob params)
    (hsize : 0 < params.trade_size)
    (heta : 0 < st.ac_params.eta)
    (hth : 10 ≤ params.time_horizon) :
    ∃ e, estimate_trade_cost st params now = some e ∧
      e.slippage_cost = (headPrice ob.asks - headPrice ob.bids) / 2 ∧
      e.maker_probability = 0.5 ∧
      e.total_cost = e.exchange_fee + e.slippage_cost + e.market_impact ∧
      e.cost_bps = e.total_cost /
        (params.trade_size * resolved_execution_price ob params) * 10000 :=
  estimate_untrained_fields st params now ob hob hasks hbids hslip hmt hprice
    hsize heta hth

/-- Witness for `estimate_trade_cost_untrained_spec`: the spec §8 snapshot
(bid 49990, ask 50010), a market buy of size 1, untrained models, initial
model configuration. -/
theorem estimate_trade_cost_untrained_spec_witness :
    ∃ e, estimate_trade_cost sec8Simulator sec8Params 0 = some e ∧
      e.slippage_cost = (headPrice sec8Book.asks - headPrice sec8Book.bids) / 2 ∧
      e.maker_probability = 0.5 ∧
      e.total_cost = e.exchange_fee + e.slippage_cost + e.market_impact ∧
      e.cost_bps = e.total_cost /
        (sec8Params.trade_size * resolved_execution_price sec8Book sec8Params) *
        10000 :=
  estimate_trade_cost_untrained_spec sec8Simulator sec8Params 0 sec8Book rfl
    (by simp [sec8Book]) (by simp [sec8Book]) rfl rfl
    (by norm_num [resolved_execution_price, sec8Params, sec8Book, headPrice])
    (by norm_num [sec8Params]) (by norm_num [sec8Simulator, initACParams])
    (by norm_num [sec8Params])

/-- C1 counterexample: in the spec §8 end-to-end scenario (market buy, both
models untrained), the maker probability used by the estimate is 0.5 — not
the 0.1 stated by §8 — so the claim's §8 figure is false on the code. -/
theorem sec8_maker_probability_is_half_not_tenth :
    (estimate_trade_cost sec8Simulator sec8Params 0).map (·.maker_probability) =
      some 0.5 ∧ (0.5 : ℝ) ≠ 0.1 := by
  obtain ⟨e, he, _, hm, _, _⟩ := estimate_untrained_fields sec8Simulator
    sec8Params 0 sec8Book rfl (by simp [sec8Book]) (by simp [sec8Book]) rfl rfl
    (by norm_num [resolved_execution_price, sec8Params, sec8Book, headPrice])
    (by norm_num [sec8Params]) (by norm_num [sec8Simulator, initACParams])
    (by norm_num [sec8Params])
  constructor
  · rw [he]
    simp [hm]
  · norm_num

/-- C5 (amended): every failure of the estimate operation — no market data, a
non-positive resolved execution price, or an internal computation error — is
reported to the caller as the same undifferentiated absent result (`None`);
the distinguishing kind is logged but never surfaced in the returned value. -/
theorem estimate_failures_undifferentiated (st : TradeSimulator)
    (params : TradeParameters) (now : ℝ) :
    (st.current_orderbook = none → estimate_trade_cost st params now = none) ∧
    (∀ ob, st.current_orderbook = some ob →
      resolved_execution_price ob params ≤ 0 →
      estimate_trade_cost st params now = none) := by
  constructor
  · intro h
    unfold estimate_trade_cost
    rw [h]
  · intro ob h hle
    unfold estimate_trade_cost
    rw [h]
    simp only []
    rw [if_pos hle]

/-- Witness for `estimate_failures_undifferentiated`: a simulator with no
market data, and one whose snapshot has an empty ask side (market buy resolves
price 0). -/
theorem estimate_failures_undifferentiated_witness :
    estimate_trade_cost noDataSimulator sec8Params 0 = none ∧
    estimate_trade_cost emptyAskSimulator sec8Params 0 = none :=
  ⟨(estimate_failures_undifferentiated noDataSimulator sec8Params 0).1 rfl,
   (estimate_failures_undifferentiated emptyAskSimulator sec8Params 0).2
     ⟨0, "BTC-USDT-SWAP", [(49990, 2)], []⟩ rfl
     (by simp [resolved_execution_price, sec8Params, headPrice])⟩

/-- C5 counterexample: two estimate calls that fail for different reasons —
one with no market data at all, one with market data but a non-positive
resolved execution price — return the very same undifferentiated `None`, so
the result does not preserve the distinguishing kind of the failure. -/
theorem failure_kinds_collapse_to_none :
    estimate_trade_cost noDataSimulator sec8Params 0 = none ∧
    estimate_trade_cost emptyAskSimulator sec8Params 0 = none ∧
    noDataSimulator.current_orderbook = none ∧
    (∃ ob, emptyAskSimulator.current_orderbook = some ob ∧
      resolved_execution_price ob sec8Params ≤ 0) ∧
    estimate_trade_cost noDataSimulator sec8Params 0 =
      estimate_trade_cost emptyAskSimulator sec8Params 0 := by
  have h1 : estimate_trade_cost noDataSimulator sec8Params 0 = none := by
    unfold estimate_trade_cost
    rw [show noDataSimulator.current_orderbook = none from rfl]
  have h2 : estimate_trade_cost emptyAskSimulator sec8Params 0 = none := by
    unfold estimate_trade_cost
    rw [show emptyAskSimulator.current_orderbook =
      some ⟨0, "BTC-USDT-SWAP", [(49990, 2)], []⟩ from rfl]
    simp only []
    rw [if_pos (by simp [resolved_execution_price, sec8Params, headPrice])]
  exact ⟨h1, h2, rfl,
    ⟨⟨0, "BTC-USDT-SWAP", [(49990, 2)], []⟩, rfl,
      by simp [resolved_execution_price, sec8Params, headPrice]⟩,
    by rw [h1, h2]⟩

end GoQuant
